import Mathlib

/-!
# Verification development for the key-value benchmark harness (`src/c/main.c`)

The C program is embedded shallowly:

* C strings are lists of characters (the bytes before the terminating NUL);
* `rand()` is a stream `rnd : Nat → Nat` of non-negative outputs together with the
  number of calls made so far (`srand` rewinds that counter);
* a write past the end of a fixed-size buffer or array is undefined behaviour in C and is
  reported as a `Fault`;
* the storage libraries (LMDB, RocksDB) are an arbitrary deterministic state machine
  `lib : σ → Call → Int × σ`, so every pattern of engine outcomes is covered;
* `clock()` is a stream of readings, and durations are exact rationals.
-/

namespace Bench

/-! ## Strings and the random source -/

/-- A C string, without its terminating NUL. -/
abbrev CStr := List Char

/-- The terminating NUL character. -/
def NUL : Char := Char.ofNat 0

/-- What a `%s` conversion or `strdup` reads from a character buffer: the characters before
the first NUL. -/
def c_str (buf : List Char) : CStr := buf.takeWhile (fun c => c != NUL)

/-- The ways in which the generator can leave defined behaviour. -/
inductive Fault where
  | index_out_of_bounds
  | buffer_overflow
  | use_after_free
deriving DecidableEq, Repr

/-- `struct kv_pair`. -/
structure kv_pair where
  key : CStr
  value : CStr
deriving DecidableEq, Repr

/-- The 52 letters of `charset`. -/
def letters : List Char := "abcdefghijklmnopqrstuvwxyzABCDEFGHIJKLMNOPQRSTUVWXYZ".toList

/-- The array `static const char charset[]` of `generate_random_string`: the 52 letters and the
terminator of the string literal, so that `sizeof(charset)` is `charset.length = 53`. -/
def charset : List Char := letters ++ [NUL]

/-- `generate_random_string(length)`, started when `pos` calls of `rand()` have been made:
character `i` is `charset[rand() % (sizeof(charset) - 1)]`.  Returns the string and the new
number of `rand()` calls; an index outside `charset` is a fault. -/
def generate_random_string (rnd : Nat → Nat) : Nat → Nat → Except Fault (CStr × Nat)
  | pos, 0 => .ok ([], pos)
  | pos, length + 1 =>
    match charset[rnd pos % (charset.length - 1)]? with
    | none => .error .index_out_of_bounds
    | some c =>
      match generate_random_string rnd (pos + 1) length with
      | .error e => .error e
      | .ok (str, pos1) => .ok (c :: str, pos1)

/-- The size of `char temp[32]` in `generate_random_pairs`. -/
def TEMP_SIZE : Nat := 32

/-- `sprintf(temp, "%d%s", n, str)` followed by `strdup(temp)`: the decimal digits of `n`, the
characters of `str` and a terminating NUL are written to `temp`; writing more than
`TEMP_SIZE` bytes overruns the buffer. -/
def sprintf_temp (n : Nat) (str : CStr) : Except Fault CStr :=
  let written := Nat.toDigits 10 n ++ c_str str
  if written.length + 1 ≤ TEMP_SIZE then .ok (c_str (written ++ [NUL])) else .error .buffer_overflow

/-- One `sprintf(temp, "%d%s", rand() % 1000000, generate_random_string(length))` and its
`strdup`.  C leaves the order in which the two arguments are evaluated unspecified:
`leftFirst = true` draws the number before the suffix, `false` after it. -/
def generate_item (leftFirst : Bool) (rnd : Nat → Nat) (pos length : Nat) :
    Except Fault (CStr × Nat) :=
  if leftFirst then
    match generate_random_string rnd (pos + 1) length with
    | .error e => .error e
    | .ok (str, pos1) =>
      match sprintf_temp (rnd pos % 1000000) str with
      | .error e => .error e
      | .ok item => .ok (item, pos1)
  else
    match generate_random_string rnd pos length with
    | .error e => .error e
    | .ok (str, pos1) =>
      match sprintf_temp (rnd pos1 % 1000000) str with
      | .error e => .error e
      | .ok item => .ok (item, pos1 + 1)

/-- `generate_random_pairs(num_items, length)`, started when `pos` calls of `rand()` have been
made: for each item the key and then the value.  Returns the array and the new number of
`rand()` calls. -/
def generate_random_pairs (leftFirst : Bool) (rnd : Nat → Nat) :
    Nat → Nat → Nat → Except Fault (List kv_pair × Nat)
  | pos, 0, _ => .ok ([], pos)
  | pos, num_items + 1, length =>
    match generate_item leftFirst rnd pos length with
    | .error e => .error e
    | .ok (key, pos1) =>
      match generate_item leftFirst rnd pos1 length with
      | .error e => .error e
      | .ok (value, pos2) =>
        match generate_random_pairs leftFirst rnd pos2 num_items length with
        | .error e => .error e
        | .ok (pairs, pos3) => .ok ({ key := key, value := value } :: pairs, pos3)

/-! ## Phase timer -/

/-- The unit-scaling rule that follows every phase: the number of fractional digits, the value
printed and the unit suffix. -/
structure Scaled where
  digits : Nat
  value : ℚ
  suffix : String
deriving DecidableEq

/-- The `if (duration >= 1.0) ... else if (duration >= 0.001) ... else ...` cascade, with the
duration an exact rational number of seconds. -/
def scale (duration : ℚ) : Scaled :=
  if duration ≥ 1 then ⟨9, duration, "s"⟩
  else if duration ≥ 1 / 1000 then ⟨6, duration * 1000, "ms"⟩
  else ⟨3, duration * 1000000, "µs"⟩

/-- The line one phase report prints, `"<label> benchmark: %.<digits>f<suffix>\n"`; `fmt d x` is
what `printf` renders for `%.df` of `x`. -/
def phase_line (fmt : Nat → ℚ → String) (label : String) (duration : ℚ) : String :=
  label ++ " benchmark: " ++ fmt (scale duration).digits (scale duration).value
    ++ (scale duration).suffix ++ "\n"

/-! ## The environment of the program -/

/-- The calls made to the LMDB and RocksDB libraries, with the arguments that vary. -/
inductive Call where
  | mdb_env_create
  | mdb_env_set_mapsize (size : Nat)
  | mdb_env_open (path : String)
  | mdb_txn_begin (rdonly : Bool)
  | mdb_dbi_open
  | mdb_put (key value : CStr)
  | mdb_txn_commit
  | mdb_get (key : CStr)
  | mdb_txn_abort
  | mdb_del (key : CStr)
  | mdb_dbi_close
  | mdb_env_close
  | rocksdb_options_create
  | rocksdb_options_set_create_if_missing (flag : Nat)
  | rocksdb_options_set_use_fsync (flag : Nat)
  | rocksdb_open (path : String)
  | rocksdb_writeoptions_create
  | rocksdb_writeoptions_set_sync (flag : Nat)
  | rocksdb_readoptions_create
  | rocksdb_put (key value : CStr)
  | rocksdb_get (key : CStr)
  | rocksdb_delete (key : CStr)
  | rocksdb_close
  | rocksdb_options_destroy
  | rocksdb_readoptions_destroy
  | rocksdb_writeoptions_destroy
deriving DecidableEq, Repr

/-- Everything the program takes from outside itself.  `lib` is the storage library as a state
machine: the outcome of a call (`0` for success; for RocksDB, non-zero stands for an error
message being stored through `errptr`) and the next library state.  `rnd` is the stream of
`rand()` outputs after `srand`, `clock` the stream of `clock()` readings, `fmt` the rendering of
`%.Nf`, `errmsg` the text of a RocksDB error and `leftFirst` the evaluation order of the
arguments of `sprintf`. -/
structure Env (σ : Type) where
  lib : σ → Call → Int × σ
  rnd : Nat → Nat
  clock : Nat → Int
  CLOCKS_PER_SEC : Nat
  fmt : Nat → ℚ → String
  errmsg : Int → String
  leftFirst : Bool

/-- The state the program acts on: the library state, the entries of the working directory,
what was written to `stdout` and `stderr` (one entry per call, oldest first), the library calls
made with their outcomes, the number of `rand()` and `clock()` calls, the globals `n_ops` and
`kv_len`, and the benchmark functions entered so far. -/
structure World (σ : Type) where
  eng : σ
  fs : List String
  out : List String
  err : List String
  trace : List (Call × Int)
  rand_calls : Nat
  clock_calls : Nat
  n_ops : Nat
  kv_len : Nat
  entered : List String

/-- The state at process start: `static int n_ops = 1000; static int kv_len = 32;`. -/
def World.start {σ : Type} (eng : σ) (fs : List String) : World σ :=
  { eng := eng, fs := fs, out := [], err := [], trace := [], rand_calls := 0, clock_calls := 0,
    n_ops := 1000, kv_len := 32, entered := [] }

/-- `printf(...)` of one formatted line. -/
def World.printf {σ : Type} (w : World σ) (line : String) : World σ :=
  { w with out := w.out ++ [line] }

/-- `fprintf(stderr, ...)` of one formatted line. -/
def World.eprintf {σ : Type} (w : World σ) (line : String) : World σ :=
  { w with err := w.err ++ [line] }

/-- One library call: its outcome and the state after it. -/
def World.call {σ : Type} (E : Env σ) (w : World σ) (c : Call) : Int × World σ :=
  ((E.lib w.eng c).1, { w with eng := (E.lib w.eng c).2, trace := w.trace ++ [(c, (E.lib w.eng c).1)] })

/-- A library call whose result the program does not read. -/
def World.call_ {σ : Type} (E : Env σ) (w : World σ) (c : Call) : World σ := (w.call E c).2

/-- `mkdir(path, 0755)`: the entry exists afterwards if the call succeeds; the result is not
read. -/
def World.mkdir {σ : Type} (w : World σ) (path : String) : World σ :=
  { w with fs := if path ∈ w.fs then w.fs else w.fs ++ [path] }

/-- `system("rm -rf <path>")`. -/
def World.rm_rf {σ : Type} (w : World σ) (path : String) : World σ :=
  { w with fs := w.fs.filter (fun p => p != path) }

/-- A `clock()` call; its reading is `E.clock w.clock_calls`, taken before this update. -/
def World.tick {σ : Type} (w : World σ) : World σ :=
  { w with clock_calls := w.clock_calls + 1 }

/-- `duration = ((double)(clock() - start)) / CLOCKS_PER_SEC`, as an exact rational. -/
def elapsed {σ : Type} (E : Env σ) (start : Int) (w : World σ) : ℚ :=
  ((E.clock w.clock_calls - start : Int) : ℚ) / (E.CLOCKS_PER_SEC : ℚ)

/-- The end of a phase: the second `clock()` reading and the report line on `stdout`. -/
def World.report {σ : Type} (E : Env σ) (label : String) (start : Int) (w : World σ) : World σ :=
  (w.printf (phase_line E.fmt label (elapsed E start w))).tick

/-! ## `bench_lmdb` -/

/-- One of the three `for (i = 0; i < n_ops; i++)` loops of `bench_lmdb` over the `n_ops` entries
of `pairs`: the library call for entry `i`, and on a non-zero `rc` the message on `stderr` and
`break`. -/
def lmdb_loop {σ : Type} (E : Env σ) (op : kv_pair → Call) (name : String) :
    List kv_pair → World σ → World σ
  | [], w => w
  | p :: rest, w =>
    if (w.call E (op p)).1 ≠ 0 then
      (w.call E (op p)).2.eprintf
        (name ++ " failed, error " ++ toString (w.call E (op p)).1 ++ "\n")
    else lmdb_loop E op name rest (w.call E (op p)).2

/-- Lines 141-163: the write phase.  The results of `mdb_txn_begin`, `mdb_dbi_open` and
`mdb_txn_commit` are assigned to `rc` and not read. -/
def lmdb_write {σ : Type} (E : Env σ) (pairs : List kv_pair) (w : World σ) : World σ :=
  ((lmdb_loop E (fun p => Call.mdb_put p.key p.value) "mdb_put" pairs
      ((w.tick.call_ E (Call.mdb_txn_begin false)).call_ E Call.mdb_dbi_open)).call_ E
    Call.mdb_txn_commit).report E "LMDB Write" (E.clock w.clock_calls)

/-- Lines 165-186: the read phase. -/
def lmdb_read {σ : Type} (E : Env σ) (pairs : List kv_pair) (w : World σ) : World σ :=
  ((lmdb_loop E (fun p => Call.mdb_get p.key) "mdb_get" pairs
      (w.tick.call_ E (Call.mdb_txn_begin true))).call_ E
    Call.mdb_txn_abort).report E "LMDB Get" (E.clock w.clock_calls)

/-- Lines 188-208: the delete phase. -/
def lmdb_delete {σ : Type} (E : Env σ) (pairs : List kv_pair) (w : World σ) : World σ :=
  ((lmdb_loop E (fun p => Call.mdb_del p.key) "mdb_del" pairs
      (w.tick.call_ E (Call.mdb_txn_begin false))).call_ E
    Call.mdb_txn_commit).report E "LMDB Delete" (E.clock w.clock_calls)

/-- Lines 210-215: cleanup (`free_pairs` has no effect that is observed). -/
def lmdb_cleanup {σ : Type} (E : Env σ) (w : World σ) : World σ :=
  (((w.call_ E Call.mdb_dbi_close).call_ E Call.mdb_env_close).rm_rf "lmdb_bench").printf "\n"

/-- Lines 119-215 of `bench_lmdb`, for the array `pairs` it has generated. -/
def bench_lmdb_on {σ : Type} (E : Env σ) (pairs : List kv_pair) (w : World σ) : World σ :=
  let r1 := (w.mkdir "lmdb_bench").call E Call.mdb_env_create
  if r1.1 ≠ 0 then
    r1.2.eprintf ("mdb_env_create failed, error " ++ toString r1.1 ++ "\n")
  else
    let r2 := r1.2.call E (Call.mdb_env_set_mapsize 10485760)
    if r2.1 ≠ 0 then
      (r2.2.eprintf ("mdb_env_set_mapsize failed, error " ++ toString r2.1 ++ "\n")).call_ E
        Call.mdb_env_close
    else
      let r3 := r2.2.call E (Call.mdb_env_open "lmdb_bench")
      if r3.1 ≠ 0 then
        (r3.2.eprintf ("mdb_env_open failed, error " ++ toString r3.1 ++ "\n")).call_ E
          Call.mdb_env_close
      else
        lmdb_cleanup E (lmdb_delete E pairs (lmdb_read E pairs (lmdb_write E pairs r3.2)))

/-- The state in which a benchmark function generates its data: its banner is printed and its
entry recorded. -/
def World.enter {σ : Type} (w : World σ) (fn banner : String) : World σ :=
  { w.printf banner with entered := w.entered ++ [fn] }

/-- `bench_lmdb()`: the banner, `pairs = generate_random_pairs(n_ops, kv_len)`, then the rest of
the function. -/
def bench_lmdb {σ : Type} (E : Env σ) (w : World σ) : Except Fault (World σ) :=
  match generate_random_pairs E.leftFirst E.rnd w.rand_calls w.n_ops w.kv_len with
  | .error e => .error e
  | .ok (pairs, pos) =>
    .ok (bench_lmdb_on E pairs
      { w.enter "bench_lmdb" "Running LMDB benchmark...\n" with rand_calls := pos })

/-! ## `bench_rocksdb` -/

/-- One of the three loops of `bench_rocksdb`.  `stale` says that `err` holds a pointer that
has already been passed to `free`: `err` is set to `NULL` once (line 242), and by the contract
in `rocksdb/c.h` a call leaves `*errptr` unchanged on success and on failure frees the old
value and stores a new message.  So once a loop has logged a failure and executed `free(err)`,
the next call either frees that pointer again or is followed by `if (err)`, `fprintf` of it and
a second `free(err)`: a fault. -/
def rocksdb_loop {σ : Type} (E : Env σ) (op : kv_pair → Call) (name : String) :
    List kv_pair → Bool → World σ → Except Fault (Bool × World σ)
  | [], stale, w => .ok (stale, w)
  | p :: rest, stale, w =>
    if stale then .error .use_after_free
    else if (w.call E (op p)).1 ≠ 0 then
      .ok (true, (w.call E (op p)).2.eprintf
        (name ++ " failed: " ++ E.errmsg (w.call E (op p)).1 ++ "\n"))
    else rocksdb_loop E op name rest false (w.call E (op p)).2

/-- A timed phase of `bench_rocksdb`: `start = clock()`, the loop, and the report. -/
def rocksdb_phase {σ : Type} (E : Env σ) (op : kv_pair → Call) (name label : String)
    (pairs : List kv_pair) (stale : Bool) (w : World σ) : Except Fault (Bool × World σ) :=
  match rocksdb_loop E op name pairs stale w.tick with
  | .error e => .error e
  | .ok (stale1, w1) => .ok (stale1, w1.report E label (E.clock w.clock_calls))

/-- Lines 317-324: cleanup. -/
def rocksdb_cleanup {σ : Type} (E : Env σ) (w : World σ) : World σ :=
  (((((w.call_ E Call.rocksdb_close).call_ E Call.rocksdb_options_destroy).call_ E
    Call.rocksdb_readoptions_destroy).call_ E Call.rocksdb_writeoptions_destroy).rm_rf
    "rocksdb_bench").printf "\n"

/-- Lines 237-324 of `bench_rocksdb`, for the array `pairs` it has generated.  A successful
`rocksdb_open` with `create_if_missing` has created the directory. -/
def bench_rocksdb_on {σ : Type} (E : Env σ) (pairs : List kv_pair) (w : World σ) :
    Except Fault (World σ) :=
  let r := (((w.call_ E Call.rocksdb_options_create).call_ E
    (Call.rocksdb_options_set_create_if_missing 1)).call_ E
    (Call.rocksdb_options_set_use_fsync 1)).call E (Call.rocksdb_open "rocksdb_bench")
  if r.1 ≠ 0 then
    .ok (r.2.eprintf ("Failed to open RocksDB: " ++ E.errmsg r.1 ++ "\n"))
  else
    match rocksdb_phase E (fun p => Call.rocksdb_put p.key p.value) "RocksDB put" "RocksDB Write"
        pairs false ((((r.2.mkdir "rocksdb_bench").call_ E Call.rocksdb_writeoptions_create).call_ E
          (Call.rocksdb_writeoptions_set_sync 1)).call_ E Call.rocksdb_readoptions_create) with
    | .error e => .error e
    | .ok (stale1, w1) =>
      match rocksdb_phase E (fun p => Call.rocksdb_get p.key) "RocksDB get" "RocksDB Get"
          pairs stale1 w1 with
      | .error e => .error e
      | .ok (stale2, w2) =>
        match rocksdb_phase E (fun p => Call.rocksdb_delete p.key) "RocksDB delete"
            "RocksDB Delete" pairs stale2 w2 with
        | .error e => .error e
        | .ok (_, w3) => .ok (rocksdb_cleanup E w3)

/-- `bench_rocksdb()`. -/
def bench_rocksdb {σ : Type} (E : Env σ) (w : World σ) : Except Fault (World σ) :=
  match generate_random_pairs E.leftFirst E.rnd w.rand_calls w.n_ops w.kv_len with
  | .error e => .error e
  | .ok (pairs, pos) =>
    bench_rocksdb_on E pairs
      { w.enter "bench_rocksdb" "Running RocksDB benchmark...\n" with rand_calls := pos }

/-! ## `main` -/

/-- `INT_MAX`. -/
def INT_MAX : Int := 2147483647

/-- `LONG_MAX` for a 64-bit `long`. -/
def LONG_MAX : Int := 9223372036854775807

/-- `LONG_MIN` for a 64-bit `long`. -/
def LONG_MIN : Int := -9223372036854775808

/-- `isspace` in the C locale: space and the characters `\t \n \v \f \r`. -/
def isspace (c : Char) : Bool := c.toNat == 32 || (9 ≤ c.toNat && c.toNat ≤ 13)

/-- The value of a decimal digit character. -/
def digit_value (c : Char) : Nat := c.toNat - 48

/-- The number a sequence of decimal digits denotes. -/
def decimal_value (ds : List Char) : Nat := ds.foldl (fun acc c => 10 * acc + digit_value c) 0

/-- The conversion of `strtol` once white space and sign are consumed: without a digit nothing
is converted and `endptr` is `nptr`; otherwise the digits are converted, the result is clamped
to the range of `long`, and `endptr` is what follows the digits. -/
def strtol_digits (negative : Bool) (nptr s : CStr) : Int × CStr :=
  if s.takeWhile Char.isDigit = [] then (0, nptr)
  else if negative then
    (max LONG_MIN (-(decimal_value (s.takeWhile Char.isDigit) : Int)), s.dropWhile Char.isDigit)
  else
    (min LONG_MAX (decimal_value (s.takeWhile Char.isDigit) : Int), s.dropWhile Char.isDigit)

/-- `strtol(nptr, &endptr, 10)` of the C library: the value and the string at `endptr`. -/
def strtol (nptr : CStr) : Int × CStr :=
  match nptr.dropWhile isspace with
  | [] => (0, nptr)
  | c :: t =>
    if c = '-' then strtol_digits true nptr t
    else if c = '+' then strtol_digits false nptr t
    else strtol_digits false nptr (c :: t)

/-- `print_usage(program_name)`. -/
def print_usage {σ : Type} (program_name : CStr) (w : World σ) : World σ :=
  ((((w.eprintf ("Usage: " ++ String.mk program_name ++ " [options]\n")).eprintf
    "Options:\n").eprintf
    "  --nops N    Number of operations (default 1000)\n").eprintf
    "  --lkv N     Length of key-value pairs (default 32)\n").eprintf
    "  --help      Display this help message\n"

/-- How the argument loop of `main` ends: with a `return` of an exit status, or by running off
the end of `argv`. -/
inductive Parsed (σ : Type) where
  | exit (status : Int) (w : World σ)
  | done (w : World σ)

/-- The test `*endptr != 0 || val <= 0 || val > INT_MAX` of lines 362 and 376. -/
def invalid_value (value : CStr) : Bool :=
  decide ((strtol value).2 ≠ [] ∨ (strtol value).1 ≤ 0 ∨ (strtol value).1 > INT_MAX)

/-- The loop `for (i = 1; i < argc; i++)` of `main` over `argv[i], ..., argv[argc - 1]`. -/
def parse_args {σ : Type} (program_name : CStr) : List CStr → World σ → Parsed σ
  | [], w => .done w
  | arg :: rest, w =>
    if arg = "--help".toList then .exit 0 (print_usage program_name w)
    else if arg = "--nops".toList then
      match rest with
      | value :: rest1 =>
        if invalid_value value then
          .exit 1 (w.eprintf ("Error: Invalid value for --nops: " ++ String.mk value ++ "\n"))
        else
          parse_args program_name rest1
            ({ w with n_ops := (strtol value).1.toNat }.printf
              ("Setting n_ops to: " ++ toString (strtol value).1 ++ "\n"))
      | [] => .exit 1 (w.eprintf "Error: Missing value for --nops\n")
    else if arg = "--lkv".toList then
      match rest with
      | value :: rest1 =>
        if invalid_value value then
          .exit 1 (w.eprintf ("Error: Invalid value for --lkv: " ++ String.mk value ++ "\n"))
        else
          parse_args program_name rest1
            ({ w with kv_len := (strtol value).1.toNat }.printf
              ("Setting kv_len to: " ++ toString (strtol value).1 ++ "\n"))
      | [] => .exit 1 (w.eprintf "Error: Missing value for --lkv\n")
    else
      .exit 1 (print_usage program_name
        (w.eprintf ("Error: Unknown argument: " ++ String.mk arg ++ "\n")))

/-- The first loop of `main`: `printf("argv[%d]: %s\n", i, argv[i])` for `i = first, ...`. -/
def print_arguments {σ : Type} : Nat → List CStr → World σ → World σ
  | _, [], w => w
  | i, arg :: rest, w =>
    print_arguments (i + 1) rest
      (w.printf ("argv[" ++ toString i ++ "]: " ++ String.mk arg ++ "\n"))

/-- `srand(time(NULL))`: from here on `rand()` yields `E.rnd 0, E.rnd 1, ...`. -/
def World.srand {σ : Type} (w : World σ) : World σ := { w with rand_calls := 0 }

/-- Lines 394-404 of `main`, reached when the argument loop runs off the end of `argv`: the
summary line, `srand(time(NULL))`, `bench_lmdb()`, `bench_rocksdb()` and `return 0`. -/
def run_benchmarks {σ : Type} (E : Env σ) (w : World σ) : Except Fault (Int × World σ) :=
  match bench_lmdb E (w.printf
      ("Running benchmarks with " ++ toString w.n_ops ++ " operations and key-value length of "
        ++ toString w.kv_len ++ "\n\n")).srand with
  | .error e => .error e
  | .ok w1 =>
    match bench_rocksdb E w1 with
    | .error e => .error e
    | .ok w2 => .ok (0, w2)

/-- `main(argc, argv)` with `argv[0] = program_name` and `argv[1 ..] = args`: the exit status
and the final state. -/
def main {σ : Type} (E : Env σ) (program_name : CStr) (args : List CStr) (w : World σ) :
    Except Fault (Int × World σ) :=
  match parse_args program_name args
      (print_arguments 0 (program_name :: args) (w.printf "Arguments received:\n")) with
  | .exit status w1 => .ok (status, w1)
  | .done w1 => run_benchmarks E w1

/-! ## Vocabulary of the specification -/

/-- The shape the specification gives to every key and value: the decimal rendering of a number
below 1000000 followed by `L` letters, hence of length `L + 1` to `L + 7`. -/
def well_formed_item (L : Nat) (s : CStr) : Prop :=
  ∃ n suffix, n < 1000000 ∧ s = Nat.toDigits 10 n ++ suffix ∧ suffix.length = L ∧
    (∀ c ∈ suffix, c ∈ letters) ∧ L + 1 ≤ s.length ∧ s.length ≤ L + 7

/-- A value written as a positive decimal integer: one or more decimal digits that denote a
number greater than zero. -/
def positive_decimal (v : CStr) : Bool :=
  !v.isEmpty && v.all Char.isDigit && decide (0 < decimal_value v)

/-- A positive decimal integer that fits an `int`. -/
def int_decimal (v : CStr) : Bool :=
  positive_decimal v && decide (decimal_value v ≤ 2147483647)

/-- The values `--nops` and `--lkv` take: optional white space, an optional `+`, then one or
more decimal digits that denote a number from 1 to `INT_MAX`. -/
def accepted_value (v : CStr) : Bool :=
  int_decimal
    (if (v.dropWhile isspace).head? = some '+' then (v.dropWhile isspace).tail
     else v.dropWhile isspace)

/-- An argument list made of option/value pairs `--nops v` and `--lkv v` with `good v`. -/
def option_pairs (good : CStr → Bool) : List CStr → Bool
  | [] => true
  | [_] => false
  | flag :: value :: rest =>
    (decide (flag = "--nops".toList) || decide (flag = "--lkv".toList)) && good value &&
      option_pairs good rest

/-- An argument list whose first element is not part of a good option/value pair and is not
`--help`: an unknown argument, `--nops` or `--lkv` without a value, or one of them with a value
that is not `good`. -/
def offending (good : CStr → Bool) : List CStr → Bool
  | [] => false
  | [arg] => decide (arg ≠ "--help".toList)
  | arg :: value :: _ =>
    if arg = "--nops".toList ∨ arg = "--lkv".toList then !good value
    else decide (arg ≠ "--help".toList)

/-- The number given last for `flag` in a list of option/value pairs, `current` when there is
none. -/
def last_value (flag : CStr) : Nat → List CStr → Nat
  | current, f :: v :: rest =>
    last_value flag (if f = flag then decimal_value v else current) rest
  | current, _ => current

/-- What argument parsing leaves alone: the library, the directory, `stderr`, the calls made,
the `rand()` and `clock()` counters and the benchmark functions entered. -/
def untouched {σ : Type} (w w1 : World σ) : Prop :=
  w1.eng = w.eng ∧ w1.fs = w.fs ∧ w1.err = w.err ∧ w1.trace = w.trace ∧
    w1.rand_calls = w.rand_calls ∧ w1.clock_calls = w.clock_calls ∧ w1.entered = w.entered

/-- What the specification asks of the calls `t` one phase issues, `ops` being the operations
for the indices `0, 1, ..., n_ops - 1`: the calls are the operations of the first `t.length`
indices, in order; every call before the last one succeeded; and when the phase stops before
the last index, the last call it made failed. -/
def phase_trace (ops : List Call) (t : List (Call × Int)) : Prop :=
  t.map Prod.fst = ops.take t.length ∧ (∀ x ∈ t.dropLast, x.2 = 0) ∧
    (t.length < ops.length → ∃ x, t.getLast? = some x ∧ x.2 ≠ 0)

/-- The store of `bench_lmdb` opens: `mdb_env_create`, `mdb_env_set_mapsize` and `mdb_env_open`
return 0 from library state `eng`. -/
def lmdb_opens {σ : Type} (E : Env σ) (eng : σ) : Bool :=
  decide ((E.lib eng Call.mdb_env_create).1 = 0 ∧
    (E.lib (E.lib eng Call.mdb_env_create).2 (Call.mdb_env_set_mapsize 10485760)).1 = 0 ∧
    (E.lib (E.lib (E.lib eng Call.mdb_env_create).2 (Call.mdb_env_set_mapsize 10485760)).2
      (Call.mdb_env_open "lmdb_bench")).1 = 0)

/-- The store of `bench_rocksdb` opens: `rocksdb_open` reports no error from library state
`eng`. -/
def rocksdb_opens {σ : Type} (E : Env σ) (eng : σ) : Bool :=
  decide ((E.lib (E.lib (E.lib (E.lib eng Call.rocksdb_options_create).2
    (Call.rocksdb_options_set_create_if_missing 1)).2
    (Call.rocksdb_options_set_use_fsync 1)).2 (Call.rocksdb_open "rocksdb_bench")).1 = 0)

/-- What a benchmark run leaves alone: the globals `n_ops` and `kv_len`, the `rand()` counter
and the record of the benchmark functions entered. -/
def same_config {σ : Type} (w w1 : World σ) : Prop :=
  w1.n_ops = w.n_ops ∧ w1.kv_len = w.kv_len ∧ w1.rand_calls = w.rand_calls ∧
    w1.entered = w.entered

/-- The five lines `print_usage` writes to `stderr`. -/
def usage_text (program_name : CStr) : List String :=
  ["Usage: " ++ String.mk program_name ++ " [options]\n", "Options:\n",
    "  --nops N    Number of operations (default 1000)\n",
    "  --lkv N     Length of key-value pairs (default 32)\n",
    "  --help      Display this help message\n"]

/-- No benchmark has run between `w` and `w1`: no benchmark function was entered, no library
call, `rand()` or `clock()` call was made and the directory is unchanged. -/
def no_benchmark {σ : Type} (w w1 : World σ) : Prop :=
  w1.entered = w.entered ∧ w1.trace = w.trace ∧ w1.fs = w.fs ∧ w1.eng = w.eng ∧
    w1.clock_calls = w.clock_calls ∧ w1.rand_calls = w.rand_calls

/-- A workload entry as the pair of its key and its value. -/
def pair_of (p : kv_pair) : CStr × CStr := (p.key, p.value)

/-- The key and value of a call that is an `mdb_put`. -/
def put_to_lmdb : Call → Option (CStr × CStr)
  | Call.mdb_put key value => some (key, value)
  | _ => none

/-- The key and value of a call that is a `rocksdb_put`. -/
def put_to_rocksdb : Call → Option (CStr × CStr)
  | Call.rocksdb_put key value => some (key, value)
  | _ => none

/-- The key/value pairs put to LMDB, in the order of the calls. -/
def lmdb_replayed (trace : List (Call × Int)) : List (CStr × CStr) :=
  (trace.map Prod.fst).filterMap put_to_lmdb

/-- The key/value pairs put to RocksDB, in the order of the calls. -/
def rocksdb_replayed (trace : List (Call × Int)) : List (CStr × CStr) :=
  (trace.map Prod.fst).filterMap put_to_rocksdb

/-- A sample environment: the library fails exactly the calls selected by `fails` (with outcome
5), `rand()` yields 0, 1, 2, ..., and `clock()` advances by 7 ticks per reading. -/
def sample_env (fails : Call → Bool) : Env Unit :=
  { lib := fun _ c => (if fails c then 5 else 0, ()),
    rnd := fun n => n,
    clock := fun n => 7 * n,
    CLOCKS_PER_SEC := 1000000,
    fmt := fun _ _ => "",
    errmsg := fun _ => "IO error",
    leftFirst := true }

/-- No call fails. -/
def no_failure : Call → Bool := fun _ => false

/-- `mdb_env_open` fails. -/
def env_open_fails : Call → Bool
  | Call.mdb_env_open _ => true
  | _ => false

/-- Every `rocksdb_put` fails. -/
def put_fails : Call → Bool
  | Call.rocksdb_put _ _ => true
  | _ => false

/-- Every `rocksdb_get` fails. -/
def get_fails : Call → Bool
  | Call.rocksdb_get _ => true
  | _ => false

/-- The exit status of a run and the benchmark functions it entered; `none` for a run that
left defined behaviour. -/
def outcome {σ : Type} (r : Except Fault (Int × World σ)) : Option (Int × List String) :=
  match r with
  | .ok (status, w) => some (status, w.entered)
  | .error _ => none

/-- The benchmarks of one run of `main`, with the workload of each backend named: `lmdb_pairs`
is generated from the `rand()` outputs that follow `srand` and is handed to the LMDB run only;
`rocksdb_pairs` is generated from the outputs that follow the `2 * n_ops * (kv_len + 1)` ones
consumed before and is handed to the RocksDB run only. -/
def replay_own_workloads {σ : Type} (E : Env σ) (w : World σ) : Except Fault (Int × World σ) :=
  match generate_random_pairs E.leftFirst E.rnd 0 w.n_ops w.kv_len with
  | .error e => .error e
  | .ok (lmdb_pairs, pos1) =>
    match generate_random_pairs E.leftFirst E.rnd (2 * w.n_ops * (w.kv_len + 1))
        w.n_ops w.kv_len with
    | .error e => .error e
    | .ok (rocksdb_pairs, pos2) =>
      match bench_rocksdb_on E rocksdb_pairs
          { ((bench_lmdb_on E lmdb_pairs
              { ((w.printf ("Running benchmarks with " ++ toString w.n_ops ++
                  " operations and key-value length of " ++ toString w.kv_len ++
                  "\n\n")).srand.enter "bench_lmdb" "Running LMDB benchmark...\n") with
                rand_calls := pos1 }).enter
              "bench_rocksdb" "Running RocksDB benchmark...\n") with rand_calls := pos2 } with
      | .error e => .error e
      | .ok w3 => .ok (0, w3)

/-! ## The workload generator -/

theorem letters_no_nul : ∀ c ∈ letters, c ≠ NUL := by decide

theorem charset_lookup (r : Nat) :
    ∃ c, charset[r % (charset.length - 1)]? = some c ∧ c ∈ letters := by
  have hlen : charset.length - 1 = letters.length := by simp [charset]
  have hlt : r % letters.length < letters.length := Nat.mod_lt _ (by decide)
  refine ⟨letters[r % letters.length], ?_, List.getElem_mem _⟩
  rw [hlen]
  simp [charset, List.getElem?_append_left hlt, List.getElem?_eq_getElem hlt]

theorem generate_random_string_spec (rnd : Nat → Nat) (length pos : Nat) :
    ∃ str, generate_random_string rnd pos length = .ok (str, pos + length) ∧
      str.length = length ∧ ∀ c ∈ str, c ∈ letters := by
  induction length generalizing pos with
  | zero => exact ⟨[], rfl, rfl, by simp⟩
  | succ k ih =>
    obtain ⟨c, hc, hmem⟩ := charset_lookup (rnd pos)
    obtain ⟨str, hs, hl, hall⟩ := ih (pos + 1)
    refine ⟨c :: str, ?_, by simp [hl], ?_⟩
    · simp only [generate_random_string, hc, hs]
      congr 2
      omega
    · intro d hd
      rcases List.mem_cons.mp hd with rfl | h
      · exact hmem
      · exact hall d h

theorem c_str_of_no_nul (s : List Char) (h : ∀ c ∈ s, c ≠ NUL) : c_str s = s := by
  unfold c_str
  rw [List.takeWhile_eq_self_iff]
  intro c hc
  simpa using h c hc

theorem c_str_terminated (s : List Char) (h : ∀ c ∈ s, c ≠ NUL) : c_str (s ++ [NUL]) = s := by
  induction s with
  | nil => simp [c_str]
  | cons a t ih =>
    have ha : a ≠ NUL := h a (List.mem_cons_self _ _)
    have ht : ∀ c ∈ t, c ≠ NUL := fun c hc => h c (List.mem_cons_of_mem _ hc)
    have := ih ht
    simp only [c_str] at this ⊢
    simp [List.takeWhile_cons, ha, this]

theorem digitChar_isDigit (m : Nat) (h : m < 10) : (Nat.digitChar m).isDigit = true := by
  interval_cases m <;> decide

theorem toDigitsCore_isDigit (fuel : Nat) : ∀ (n : Nat) (acc : List Char),
    (∀ c ∈ acc, c.isDigit = true) → ∀ c ∈ Nat.toDigitsCore 10 fuel n acc, c.isDigit = true := by
  induction fuel with
  | zero => intro n acc h; simpa [Nat.toDigitsCore] using h
  | succ f ih =>
    intro n acc h
    have hd : (Nat.digitChar (n % 10)).isDigit = true := digitChar_isDigit _ (Nat.mod_lt _ (by decide))
    have hacc : ∀ c ∈ Nat.digitChar (n % 10) :: acc, c.isDigit = true := by
      intro c hc
      rcases List.mem_cons.mp hc with rfl | hc
      · exact hd
      · exact h c hc
    simp only [Nat.toDigitsCore]
    split
    · exact hacc
    · exact ih _ _ hacc

theorem toDigits_isDigit (n : Nat) : ∀ c ∈ Nat.toDigits 10 n, c.isDigit = true :=
  toDigitsCore_isDigit _ _ _ (by simp)

theorem toDigitsCore_length_pos (fuel n : Nat) (acc : List Char) :
    0 < (Nat.toDigitsCore 10 (fuel + 1) n acc).length := by
  induction fuel generalizing n acc with
  | zero => simp only [Nat.toDigitsCore]; split <;> simp
  | succ f ih =>
    rw [Nat.toDigitsCore]
    split
    · simp
    · exact ih _ _

theorem toDigits_length_pos (n : Nat) : 0 < (Nat.toDigits 10 n).length :=
  toDigitsCore_length_pos _ _ _

theorem toDigits_length_le (n : Nat) (h : n < 1000000) : (Nat.toDigits 10 n).length ≤ 6 :=
  Nat.toDigitsCore_length 10 (by decide) (n + 1) n 6 (by simpa using h) (by decide)

theorem isDigit_ne_nul (c : Char) (h : c.isDigit = true) : c ≠ NUL := by
  rintro rfl
  exact absurd h (by decide)

theorem sprintf_temp_eq (n : Nat) (str : CStr) (h : ∀ c ∈ str, c ∈ letters) :
    sprintf_temp n str =
      if (Nat.toDigits 10 n).length + str.length + 1 ≤ TEMP_SIZE then .ok (Nat.toDigits 10 n ++ str)
      else .error .buffer_overflow := by
  have h1 : c_str str = str := c_str_of_no_nul _ (fun c hc => letters_no_nul c (h c hc))
  have h2 : ∀ c ∈ Nat.toDigits 10 n ++ str, c ≠ NUL := by
    intro c hc
    rcases List.mem_append.mp hc with hc | hc
    · exact isDigit_ne_nul c (toDigits_isDigit n c hc)
    · exact letters_no_nul c (h c hc)
  simp only [sprintf_temp, h1, c_str_terminated _ h2, List.length_append]

theorem generate_item_cases (leftFirst : Bool) (rnd : Nat → Nat) (pos length : Nat) :
    ∃ n suffix, n < 1000000 ∧ suffix.length = length ∧ (∀ c ∈ suffix, c ∈ letters) ∧
      generate_item leftFirst rnd pos length =
        if (Nat.toDigits 10 n).length + length + 1 ≤ TEMP_SIZE then
          .ok (Nat.toDigits 10 n ++ suffix, pos + length + 1)
        else .error .buffer_overflow := by
  cases leftFirst with
  | true =>
    obtain ⟨str, hs, hl, hall⟩ := generate_random_string_spec rnd length (pos + 1)
    refine ⟨rnd pos % 1000000, str, Nat.mod_lt _ (by decide), hl, hall, ?_⟩
    simp only [generate_item, hs, sprintf_temp_eq _ _ hall, hl, if_true]
    by_cases hc : (Nat.toDigits 10 (rnd pos % 1000000)).length + length + 1 ≤ TEMP_SIZE
    · simp only [if_pos hc]
      congr 2
      omega
    · simp only [if_neg hc]
  | false =>
    obtain ⟨str, hs, hl, hall⟩ := generate_random_string_spec rnd length pos
    refine ⟨rnd (pos + length) % 1000000, str, Nat.mod_lt _ (by decide), hl, hall, ?_⟩
    simp only [generate_item, hs, sprintf_temp_eq _ _ hall, hl, Bool.false_eq_true, if_false]
    by_cases hc : (Nat.toDigits 10 (rnd (pos + length) % 1000000)).length + length + 1 ≤ TEMP_SIZE
    · simp only [if_pos hc]
    · simp only [if_neg hc]

theorem generate_item_overflow (leftFirst : Bool) (rnd : Nat → Nat) (pos length : Nat)
    (h : 31 ≤ length) : generate_item leftFirst rnd pos length = .error .buffer_overflow := by
  obtain ⟨n, suffix, _, _, _, heq⟩ := generate_item_cases leftFirst rnd pos length
  have := toDigits_length_pos n
  rw [heq, if_neg]
  simp only [TEMP_SIZE]
  omega

theorem generate_item_ok (leftFirst : Bool) (rnd : Nat → Nat) (pos length : Nat) (item : CStr)
    (pos1 : Nat) (h : generate_item leftFirst rnd pos length = .ok (item, pos1)) :
    pos1 = pos + length + 1 ∧ well_formed_item length item := by
  obtain ⟨n, suffix, hn, hl, hall, heq⟩ := generate_item_cases leftFirst rnd pos length
  have h1 := toDigits_length_pos n
  have h2 := toDigits_length_le n hn
  rw [heq] at h
  split at h
  · simp only [Except.ok.injEq, Prod.mk.injEq] at h
    obtain ⟨rfl, rfl⟩ := h
    refine ⟨rfl, n, suffix, hn, rfl, hl, hall, ?_, ?_⟩ <;> simp only [List.length_append] <;> omega
  · cases h

theorem generate_item_fits (leftFirst : Bool) (rnd : Nat → Nat) (pos length : Nat)
    (h : length ≤ 25) :
    ∃ item, generate_item leftFirst rnd pos length = .ok (item, pos + length + 1) := by
  obtain ⟨n, suffix, hn, hl, hall, heq⟩ := generate_item_cases leftFirst rnd pos length
  have h2 := toDigits_length_le n hn
  refine ⟨Nat.toDigits 10 n ++ suffix, ?_⟩
  rw [heq, if_pos]
  simp only [TEMP_SIZE]
  omega

theorem generate_random_pairs_ok (leftFirst : Bool) (rnd : Nat → Nat) (num_items length : Nat) :
    ∀ (pos : Nat) (pairs : List kv_pair) (pos1 : Nat),
      generate_random_pairs leftFirst rnd pos num_items length = .ok (pairs, pos1) →
      pairs.length = num_items ∧ pos1 = pos + 2 * num_items * (length + 1) ∧
      ∀ p ∈ pairs, well_formed_item length p.key ∧ well_formed_item length p.value := by
  induction num_items with
  | zero =>
    intro pos pairs pos1 h
    simp only [generate_random_pairs, Except.ok.injEq, Prod.mk.injEq] at h
    obtain ⟨rfl, rfl⟩ := h
    simp
  | succ k ih =>
    intro pos pairs pos1 h
    simp only [generate_random_pairs] at h
    split at h
    · cases h
    · rename_i key p1 hk
      split at h
      · cases h
      · rename_i value p2 hv
        split at h
        · cases h
        · rename_i rest p3 hr
          simp only [Except.ok.injEq, Prod.mk.injEq] at h
          obtain ⟨rfl, rfl⟩ := h
          obtain ⟨hp1, hwk⟩ := generate_item_ok _ _ _ _ _ _ hk
          obtain ⟨hp2, hwv⟩ := generate_item_ok _ _ _ _ _ _ hv
          obtain ⟨hlen, hp3, hall⟩ := ih _ _ _ hr
          refine ⟨by simp [hlen], ?_, ?_⟩
          · rw [hp3, hp2, hp1]; ring
          · intro p hp
            rcases List.mem_cons.mp hp with rfl | hp
            · exact ⟨hwk, hwv⟩
            · exact hall p hp

theorem generate_random_pairs_fits (leftFirst : Bool) (rnd : Nat → Nat) (num_items length : Nat)
    (h : length ≤ 25) : ∀ pos : Nat,
      ∃ pairs, generate_random_pairs leftFirst rnd pos num_items length =
        .ok (pairs, pos + 2 * num_items * (length + 1)) := by
  induction num_items with
  | zero => intro pos; exact ⟨[], by simp [generate_random_pairs]⟩
  | succ k ih =>
    intro pos
    obtain ⟨key, hk⟩ := generate_item_fits leftFirst rnd pos length h
    obtain ⟨value, hv⟩ := generate_item_fits leftFirst rnd (pos + length + 1) length h
    obtain ⟨rest, hr⟩ := ih (pos + length + 1 + length + 1)
    refine ⟨{ key := key, value := value } :: rest, ?_⟩
    simp only [generate_random_pairs, hk, hv, hr]
    congr 2
    ring

theorem generate_random_pairs_overflow (leftFirst : Bool) (rnd : Nat → Nat)
    (pos num_items length : Nat) (h : 31 ≤ length) :
    generate_random_pairs leftFirst rnd pos (num_items + 1) length = .error .buffer_overflow := by
  simp only [generate_random_pairs, generate_item_overflow leftFirst rnd pos length h]

/-! ## The phase timer -/

theorem scale_seconds (d : ℚ) (h : 1 ≤ d) : scale d = ⟨9, d, "s"⟩ := by
  unfold scale; rw [if_pos h]

theorem scale_millis (d : ℚ) (h1 : d < 1) (h2 : 1 / 1000 ≤ d) :
    scale d = ⟨6, d * 1000, "ms"⟩ := by
  unfold scale; rw [if_neg (not_le.mpr h1), if_pos h2]

theorem scale_micros (d : ℚ) (h : d < 1 / 1000) : scale d = ⟨3, d * 1000000, "µs"⟩ := by
  have h1 : ¬ d ≥ 1 := by
    intro h1
    have : (1 : ℚ) / 1000 < 1 := by norm_num
    linarith
  unfold scale; rw [if_neg h1, if_neg (not_le.mpr h)]

theorem scaled_digits_ne (a b : Nat) (x y : ℚ) (s t : String) (h : a ≠ b) :
    (⟨a, x, s⟩ : Scaled) ≠ ⟨b, y, t⟩ :=
  fun e => h (congrArg Scaled.digits e)

/-- C3. For every duration `d` (an exact rational number of seconds) the report picks exactly one
unit: seconds with 9 fractional digits iff `d ≥ 1`, milliseconds with 6 digits and value
`d * 1000` iff `1/1000 ≤ d < 1`, microseconds with 3 digits and value `d * 1000000` iff
`d < 1/1000`; both thresholds are inclusive; 1 s prints as seconds, 0.5 s and 0.0011 s as
milliseconds, 0.0009 s as microseconds.  Every one of the six phase reports is `World.report`,
which prints the `phase_line` built from this rule. -/
theorem unit_scaling (d : ℚ) :
    (scale d = ⟨9, d, "s"⟩ ↔ 1 ≤ d) ∧
    (scale d = ⟨6, d * 1000, "ms"⟩ ↔ 1 / 1000 ≤ d ∧ d < 1) ∧
    (scale d = ⟨3, d * 1000000, "µs"⟩ ↔ d < 1 / 1000) ∧
    scale 1 = ⟨9, 1, "s"⟩ ∧ scale (1 / 1000) = ⟨6, 1, "ms"⟩ ∧ scale (1 / 2) = ⟨6, 500, "ms"⟩ ∧
    scale (11 / 10000) = ⟨6, 11 / 10, "ms"⟩ ∧ scale (9 / 10000) = ⟨3, 900, "µs"⟩ ∧
    (∀ (fmt : Nat → ℚ → String) (label : String), phase_line fmt label d =
      label ++ " benchmark: " ++ fmt (scale d).digits (scale d).value ++ (scale d).suffix
        ++ "\n") := by
  have key : (1 ≤ d ∧ scale d = ⟨9, d, "s"⟩) ∨
      (1 / 1000 ≤ d ∧ d < 1 ∧ scale d = ⟨6, d * 1000, "ms"⟩) ∨
      (d < 1 / 1000 ∧ scale d = ⟨3, d * 1000000, "µs"⟩) := by
    rcases le_or_lt 1 d with h1 | h1
    · exact Or.inl ⟨h1, scale_seconds d h1⟩
    · rcases le_or_lt (1 / 1000) d with h2 | h2
      · exact Or.inr (Or.inl ⟨h2, h1, scale_millis d h1 h2⟩)
      · exact Or.inr (Or.inr ⟨h2, scale_micros d h2⟩)
  have hlt : (1 : ℚ) / 1000 < 1 := by norm_num
  refine ⟨?_, ?_, ?_, ?_, ?_, ?_, ?_, ?_, fun _ _ => rfl⟩
  · rcases key with ⟨h, e⟩ | ⟨h2, h1, e⟩ | ⟨h, e⟩
    · exact ⟨fun _ => h, fun _ => e⟩
    · rw [e]
      exact ⟨fun c => absurd c (scaled_digits_ne _ _ _ _ _ _ (by decide)),
        fun c => absurd c (not_le.mpr h1)⟩
    · rw [e]
      exact ⟨fun c => absurd c (scaled_digits_ne _ _ _ _ _ _ (by decide)),
        fun c => absurd c (not_le.mpr (lt_trans h hlt))⟩
  · rcases key with ⟨h, e⟩ | ⟨h2, h1, e⟩ | ⟨h, e⟩
    · rw [e]
      exact ⟨fun c => absurd c (scaled_digits_ne _ _ _ _ _ _ (by decide)),
        fun c => absurd h (not_le.mpr c.2)⟩
    · exact ⟨fun _ => ⟨h2, h1⟩, fun _ => e⟩
    · rw [e]
      exact ⟨fun c => absurd c (scaled_digits_ne _ _ _ _ _ _ (by decide)),
        fun c => absurd c.1 (not_le.mpr h)⟩
  · rcases key with ⟨h, e⟩ | ⟨h2, h1, e⟩ | ⟨h, e⟩
    · rw [e]
      exact ⟨fun c => absurd c (scaled_digits_ne _ _ _ _ _ _ (by decide)),
        fun c => absurd h (not_le.mpr (lt_trans c hlt))⟩
    · rw [e]
      exact ⟨fun c => absurd c (scaled_digits_ne _ _ _ _ _ _ (by decide)),
        fun c => absurd h2 (not_le.mpr c)⟩
    · exact ⟨fun _ => h, fun _ => e⟩
  · exact scale_seconds 1 (le_refl _)
  · rw [scale_millis _ hlt (le_refl _)]; norm_num
  · rw [scale_millis _ (by norm_num) (by norm_num)]; norm_num
  · rw [scale_millis _ (by norm_num) (by norm_num)]; norm_num
  · rw [scale_micros _ (by norm_num)]; norm_num

/-! ## Argument values -/

theorem isDigit_iff (c : Char) : c.isDigit = true ↔ 48 ≤ c.toNat ∧ c.toNat ≤ 57 := by
  simp only [Char.isDigit, Bool.and_eq_true, decide_eq_true_eq, Char.toNat, ge_iff_le,
    UInt32.le_def, Fin.le_def]
  rfl

theorem isDigit_not_isspace (c : Char) (h : c.isDigit = true) : isspace c = false := by
  rw [isDigit_iff] at h
  simp only [isspace, Bool.or_eq_false_iff, Bool.and_eq_false_iff, beq_eq_false_iff_ne,
    decide_eq_false_iff_not]
  omega

theorem isDigit_ne_minus (c : Char) (h : c.isDigit = true) : c ≠ '-' := by
  rintro rfl; exact absurd h (by decide)

theorem isDigit_ne_plus (c : Char) (h : c.isDigit = true) : c ≠ '+' := by
  rintro rfl; exact absurd h (by decide)

theorem takeWhile_eq_nil_of_not_all (s : List Char) (h : s.takeWhile Char.isDigit = []) :
    (!s.isEmpty && s.all Char.isDigit) = false := by
  cases s with
  | nil => rfl
  | cons a t =>
    by_cases ha : a.isDigit = true
    · simp [List.takeWhile_cons, ha] at h
    · simp [ha]

theorem strtol_digits_invalid (nptr s : CStr) :
    decide ((strtol_digits false nptr s).2 ≠ [] ∨ (strtol_digits false nptr s).1 ≤ 0 ∨
      (strtol_digits false nptr s).1 > INT_MAX) = !int_decimal s := by
  unfold strtol_digits
  by_cases h0 : s.takeWhile Char.isDigit = []
  · have := takeWhile_eq_nil_of_not_all s h0
    simp only [h0, if_true, le_refl, true_or, or_true, decide_True, int_decimal, positive_decimal,
      this, Bool.false_and, Bool.not_false]
  · simp only [h0, if_false, Bool.false_eq_true]
    by_cases hall : s.all Char.isDigit = true
    · have htw : s.takeWhile Char.isDigit = s := by
        rw [List.takeWhile_eq_self_iff]; simpa using hall
      have hdw : s.dropWhile Char.isDigit = [] := by
        rw [List.dropWhile_eq_nil_iff]; simpa using hall
      have hne : s ≠ [] := by rw [htw] at h0; exact h0
      have hemp : s.isEmpty = false := by cases s <;> simp_all
      simp only [htw, hdw, int_decimal, positive_decimal, hall, hemp, Bool.not_false,
        Bool.true_and, Bool.and_true, ne_eq, not_true_eq_false, false_or, INT_MAX, LONG_MAX]
      by_cases h1 : 0 < decimal_value s <;> by_cases h2 : decimal_value s ≤ 2147483647 <;>
        simp [h1, h2] <;> omega
    · have hdw : s.dropWhile Char.isDigit ≠ [] := by
        rw [Ne, List.dropWhile_eq_nil_iff]; simpa using hall
      simp only [Bool.not_eq_true] at hall
      simp [hdw, int_decimal, positive_decimal, hall]

theorem strtol_digits_negative (nptr s : CStr) : (strtol_digits true nptr s).1 ≤ 0 := by
  unfold strtol_digits
  split
  · exact le_refl _
  · simp only [if_true]
    apply max_le
    · decide
    · omega

theorem invalid_value_eq (v : CStr) : invalid_value v = !accepted_value v := by
  unfold invalid_value strtol accepted_value
  cases hs : v.dropWhile isspace with
  | nil => simp [int_decimal, positive_decimal]
  | cons c t =>
    simp only [List.head?_cons, List.tail_cons, Option.some.injEq]
    by_cases hm : c = '-'
    · subst hm
      have := strtol_digits_negative v t
      simp [this, int_decimal, positive_decimal]
    · by_cases hp : c = '+'
      · subst hp
        simp only [if_neg hm, if_true]
        exact strtol_digits_invalid v t
      · simp only [if_neg hm, if_neg hp]
        exact strtol_digits_invalid v (c :: t)

theorem int_decimal_strtol (v : CStr) (h : int_decimal v = true) :
    strtol v = ((decimal_value v : Int), []) ∧ accepted_value v = true := by
  simp only [int_decimal, positive_decimal, Bool.and_eq_true, Bool.not_eq_true',
    decide_eq_true_eq] at h
  obtain ⟨⟨⟨hne, hall⟩, hpos⟩, hmax⟩ := h
  cases v with
  | nil => simp at hne
  | cons c t =>
    have hc : c.isDigit = true := by simp only [List.all_cons, Bool.and_eq_true] at hall; exact hall.1
    have hsp : (c :: t).dropWhile isspace = c :: t := by
      simp [List.dropWhile_cons, isDigit_not_isspace c hc]
    have htw : (c :: t).takeWhile Char.isDigit = c :: t := by
      rw [List.takeWhile_eq_self_iff]; simpa using hall
    have hdw : (c :: t).dropWhile Char.isDigit = [] := by
      rw [List.dropWhile_eq_nil_iff]; simpa using hall
    constructor
    · simp only [strtol, hsp, if_neg (isDigit_ne_minus c hc), if_neg (isDigit_ne_plus c hc),
        strtol_digits, htw, hdw, Bool.false_eq_true, if_false, LONG_MAX]
      simp only [reduceCtorEq, ↓reduceIte, Prod.mk.injEq, and_true]
      omega
    · have hp : ¬ (some c = some '+') := by
        simp only [Option.some.injEq]; exact isDigit_ne_plus c hc
      simp only [accepted_value, hsp, List.head?_cons, if_neg hp, int_decimal, positive_decimal,
        hall, hpos, hmax, List.isEmpty_cons, Bool.not_false, Bool.and_self, decide_True]

theorem accepted_value_valid (v : CStr) (h : accepted_value v = true) :
    invalid_value v = false := by
  rw [invalid_value_eq, h]; rfl

theorem int_decimal_valid (v : CStr) (h : int_decimal v = true) : invalid_value v = false :=
  accepted_value_valid v (int_decimal_strtol v h).2

theorem nops_ne_help : ¬ "--nops".toList = "--help".toList := by decide
theorem lkv_ne_help : ¬ "--lkv".toList = "--help".toList := by decide
theorem lkv_ne_nops : ¬ "--lkv".toList = "--nops".toList := by decide
theorem nops_ne_lkv : ¬ "--nops".toList = "--lkv".toList := by decide

theorem untouched_refl {σ : Type} (w : World σ) : untouched w w :=
  ⟨rfl, rfl, rfl, rfl, rfl, rfl, rfl⟩

theorem untouched_trans {σ : Type} {a b c : World σ} (h1 : untouched a b) (h2 : untouched b c) :
    untouched a c := by
  obtain ⟨e1, e2, e3, e4, e5, e6, e7⟩ := h1
  obtain ⟨f1, f2, f3, f4, f5, f6, f7⟩ := h2
  exact ⟨f1.trans e1, f2.trans e2, f3.trans e3, f4.trans e4, f5.trans e5, f6.trans e6,
    f7.trans e7⟩

theorem parse_pairs {σ : Type} (program_name : CStr) (good : CStr → Bool)
    (hgood : ∀ v, good v = true → invalid_value v = false) :
    ∀ (pre : List CStr) (w : World σ), option_pairs good pre = true →
      ∃ w1, untouched w w1 ∧
        ((∀ v, good v = true → (strtol v).1.toNat = decimal_value v) →
          w1.n_ops = last_value "--nops".toList w.n_ops pre ∧
          w1.kv_len = last_value "--lkv".toList w.kv_len pre) ∧
        ∀ rest, parse_args program_name (pre ++ rest) w = parse_args program_name rest w1
  | [], w, _ => ⟨w, untouched_refl w, fun _ => ⟨rfl, rfl⟩, fun _ => rfl⟩
  | [_], _, h => by simp [option_pairs] at h
  | flag :: value :: more, w, h => by
    simp only [option_pairs, Bool.and_eq_true, Bool.or_eq_true, decide_eq_true_eq] at h
    obtain ⟨⟨hflag, hv⟩, hmore⟩ := h
    rcases hflag with rfl | rfl
    · obtain ⟨w1, hu, hcfg, hparse⟩ := parse_pairs program_name good hgood more
        ({ w with n_ops := (strtol value).1.toNat }.printf
          ("Setting n_ops to: " ++ toString (strtol value).1 ++ "\n")) hmore
      refine ⟨w1, untouched_trans ⟨rfl, rfl, rfl, rfl, rfl, rfl, rfl⟩ hu, ?_, ?_⟩
      · intro hval
        have := hcfg hval
        simp only [last_value, if_true, if_neg nops_ne_lkv, ← hval value hv]
        exact this
      · intro rest
        simp only [List.cons_append, parse_args, if_neg nops_ne_help, if_true, hgood value hv,
          Bool.false_eq_true, if_false]
        exact hparse rest
    · obtain ⟨w1, hu, hcfg, hparse⟩ := parse_pairs program_name good hgood more
        ({ w with kv_len := (strtol value).1.toNat }.printf
          ("Setting kv_len to: " ++ toString (strtol value).1 ++ "\n")) hmore
      refine ⟨w1, untouched_trans ⟨rfl, rfl, rfl, rfl, rfl, rfl, rfl⟩ hu, ?_, ?_⟩
      · intro hval
        have := hcfg hval
        simp only [last_value, if_true, if_neg lkv_ne_nops, ← hval value hv]
        exact this
      · intro rest
        simp only [List.cons_append, parse_args, if_neg lkv_ne_help, if_neg lkv_ne_nops, if_true,
          hgood value hv, Bool.false_eq_true, if_false]
        exact hparse rest

theorem print_arguments_untouched {σ : Type} : ∀ (args : List CStr) (i : Nat) (w : World σ),
    untouched w (print_arguments i args w) ∧ (print_arguments i args w).n_ops = w.n_ops ∧
      (print_arguments i args w).kv_len = w.kv_len
  | [], _, w => ⟨untouched_refl w, rfl, rfl⟩
  | arg :: rest, i, w => by
    obtain ⟨hu, hn, hk⟩ := print_arguments_untouched rest (i + 1)
      (w.printf ("argv[" ++ toString i ++ "]: " ++ String.mk arg ++ "\n"))
    exact ⟨untouched_trans ⟨rfl, rfl, rfl, rfl, rfl, rfl, rfl⟩ hu, hn, hk⟩

/-! ## The LMDB run -/

theorem lmdb_loop_frame {σ : Type} (E : Env σ) (op : kv_pair → Call) (name : String) :
    ∀ (pairs : List kv_pair) (w : World σ),
      (lmdb_loop E op name pairs w).out = w.out ∧ (lmdb_loop E op name pairs w).fs = w.fs ∧
      (lmdb_loop E op name pairs w).clock_calls = w.clock_calls ∧
      (lmdb_loop E op name pairs w).rand_calls = w.rand_calls ∧
      (lmdb_loop E op name pairs w).n_ops = w.n_ops ∧
      (lmdb_loop E op name pairs w).kv_len = w.kv_len ∧
      (lmdb_loop E op name pairs w).entered = w.entered
  | [], w => ⟨rfl, rfl, rfl, rfl, rfl, rfl, rfl⟩
  | p :: rest, w => by
    by_cases h : (w.call E (op p)).1 ≠ 0
    · simp only [lmdb_loop, if_pos h]
      exact ⟨rfl, rfl, rfl, rfl, rfl, rfl, rfl⟩
    · simp only [lmdb_loop, if_neg h]
      exact lmdb_loop_frame E op name rest (w.call E (op p)).2

theorem lmdb_phases_frame {σ : Type} (E : Env σ) (pairs : List kv_pair) (w : World σ) :
    (lmdb_cleanup E (lmdb_delete E pairs (lmdb_read E pairs (lmdb_write E pairs w)))).out =
      w.out ++ [phase_line E.fmt "LMDB Write"
          (((E.clock (w.clock_calls + 1) - E.clock w.clock_calls : Int) : ℚ) / E.CLOCKS_PER_SEC),
        phase_line E.fmt "LMDB Get"
          (((E.clock (w.clock_calls + 3) - E.clock (w.clock_calls + 2) : Int) : ℚ)
            / E.CLOCKS_PER_SEC),
        phase_line E.fmt "LMDB Delete"
          (((E.clock (w.clock_calls + 5) - E.clock (w.clock_calls + 4) : Int) : ℚ)
            / E.CLOCKS_PER_SEC),
        "\n"] ∧
    "lmdb_bench" ∉
      (lmdb_cleanup E (lmdb_delete E pairs (lmdb_read E pairs (lmdb_write E pairs w)))).fs ∧
    (lmdb_cleanup E (lmdb_delete E pairs (lmdb_read E pairs (lmdb_write E pairs w)))).n_ops =
      w.n_ops ∧
    (lmdb_cleanup E (lmdb_delete E pairs (lmdb_read E pairs (lmdb_write E pairs w)))).kv_len =
      w.kv_len ∧
    (lmdb_cleanup E (lmdb_delete E pairs (lmdb_read E pairs (lmdb_write E pairs w)))).entered =
      w.entered ∧
    (lmdb_cleanup E (lmdb_delete E pairs (lmdb_read E pairs (lmdb_write E pairs w)))).rand_calls =
      w.rand_calls := by
  simp only [lmdb_cleanup, lmdb_delete, lmdb_read, lmdb_write, World.report, World.printf,
    World.tick, World.call_, World.call, World.rm_rf, elapsed, lmdb_loop_frame,
    List.append_assoc, List.singleton_append, List.mem_filter, bne_self_eq_false, and_false,
    not_false_eq_true, and_self, and_true, Bool.false_eq_true, Nat.add_assoc, Nat.reduceAdd,
    List.cons_append, List.nil_append]

theorem phase_trace_nil : phase_trace [] [] := by
  simp [phase_trace]

theorem phase_trace_stop (c : Call) (rc : Int) (ops : List Call) (h : rc ≠ 0) :
    phase_trace (c :: ops) [(c, rc)] := by
  refine ⟨by simp, by simp, fun _ => ⟨(c, rc), by simp, h⟩⟩

theorem phase_trace_step (c : Call) (ops : List Call) (t : List (Call × Int))
    (h : phase_trace ops t) : phase_trace (c :: ops) ((c, 0) :: t) := by
  obtain ⟨h1, h2, h3⟩ := h
  cases t with
  | nil =>
    refine ⟨by simp, by simp, ?_⟩
    intro hlt
    simp only [List.length_nil, List.length_cons, Nat.zero_add, Nat.lt_add_left_iff_pos] at hlt
    obtain ⟨x, hx, _⟩ := h3 hlt
    simp at hx
  | cons y t =>
    refine ⟨by simpa using h1, ?_, ?_⟩
    · intro x hx
      rw [List.dropLast_cons₂] at hx
      rcases List.mem_cons.mp hx with rfl | hx
      · rfl
      · exact h2 x hx
    · intro hlt
      simp only [List.length_cons, Nat.add_lt_add_iff_right] at hlt
      obtain ⟨x, hx, hne⟩ := h3 (by simpa using hlt)
      exact ⟨x, by simpa [List.getLast?_cons_cons] using hx, hne⟩

/-- When no call of a phase failed, the phase issued the operation of every index. -/
theorem phase_trace_complete (ops : List Call) (t : List (Call × Int)) (h : phase_trace ops t)
    (hok : ∀ x ∈ t, x.2 = 0) : t.map Prod.fst = ops := by
  obtain ⟨h1, _, h3⟩ := h
  by_cases hlt : t.length < ops.length
  · obtain ⟨x, hx, hne⟩ := h3 hlt
    exact absurd (hok x (List.mem_of_mem_getLast? hx)) hne
  · rw [h1, List.take_of_length_le (by omega)]

theorem lmdb_loop_trace {σ : Type} (E : Env σ) (op : kv_pair → Call) (name : String) :
    ∀ (pairs : List kv_pair) (w : World σ),
      ∃ t, (lmdb_loop E op name pairs w).trace = w.trace ++ t ∧ phase_trace (pairs.map op) t
  | [], w => ⟨[], by simp [lmdb_loop], phase_trace_nil⟩
  | p :: rest, w => by
    by_cases h : (w.call E (op p)).1 ≠ 0
    · refine ⟨[(op p, (E.lib w.eng (op p)).1)], ?_, phase_trace_stop _ _ _ h⟩
      simp only [lmdb_loop, if_pos h]
      rfl
    · obtain ⟨t, ht, hp⟩ := lmdb_loop_trace E op name rest (w.call E (op p)).2
      have h0 : (E.lib w.eng (op p)).1 = 0 := by simpa [World.call] using h
      refine ⟨(op p, 0) :: t, ?_, phase_trace_step _ _ _ hp⟩
      simp only [lmdb_loop, if_neg h, ht]
      simp [World.call, h0]

theorem lmdb_write_trace {σ : Type} (E : Env σ) (pairs : List kv_pair) (w : World σ) :
    ∃ r1 r2 r3 t, (lmdb_write E pairs w).trace =
        w.trace ++ [(Call.mdb_txn_begin false, r1), (Call.mdb_dbi_open, r2)] ++ t ++
          [(Call.mdb_txn_commit, r3)] ∧
      phase_trace (pairs.map (fun p => Call.mdb_put p.key p.value)) t := by
  obtain ⟨t, ht, hp⟩ := lmdb_loop_trace E (fun p => Call.mdb_put p.key p.value) "mdb_put" pairs
    ((w.tick.call_ E (Call.mdb_txn_begin false)).call_ E Call.mdb_dbi_open)
  refine ⟨(E.lib w.eng (Call.mdb_txn_begin false)).1,
    (E.lib (E.lib w.eng (Call.mdb_txn_begin false)).2 Call.mdb_dbi_open).1,
    (E.lib (lmdb_loop E (fun p => Call.mdb_put p.key p.value) "mdb_put" pairs
      ((w.tick.call_ E (Call.mdb_txn_begin false)).call_ E Call.mdb_dbi_open)).eng
      Call.mdb_txn_commit).1, t, ?_, hp⟩
  simp only [lmdb_write, World.report, World.printf, World.tick, World.call_, World.call] at ht ⊢
  rw [ht]
  simp

theorem lmdb_read_trace {σ : Type} (E : Env σ) (pairs : List kv_pair) (w : World σ) :
    ∃ r1 r2 t, (lmdb_read E pairs w).trace =
        w.trace ++ [(Call.mdb_txn_begin true, r1)] ++ t ++ [(Call.mdb_txn_abort, r2)] ∧
      phase_trace (pairs.map (fun p => Call.mdb_get p.key)) t := by
  obtain ⟨t, ht, hp⟩ := lmdb_loop_trace E (fun p => Call.mdb_get p.key) "mdb_get" pairs
    (w.tick.call_ E (Call.mdb_txn_begin true))
  refine ⟨(E.lib w.eng (Call.mdb_txn_begin true)).1,
    (E.lib (lmdb_loop E (fun p => Call.mdb_get p.key) "mdb_get" pairs
      (w.tick.call_ E (Call.mdb_txn_begin true))).eng Call.mdb_txn_abort).1, t, ?_, hp⟩
  simp only [lmdb_read, World.report, World.printf, World.tick, World.call_, World.call] at ht ⊢
  rw [ht]

theorem lmdb_delete_trace {σ : Type} (E : Env σ) (pairs : List kv_pair) (w : World σ) :
    ∃ r1 r2 t, (lmdb_delete E pairs w).trace =
        w.trace ++ [(Call.mdb_txn_begin false, r1)] ++ t ++ [(Call.mdb_txn_commit, r2)] ∧
      phase_trace (pairs.map (fun p => Call.mdb_del p.key)) t := by
  obtain ⟨t, ht, hp⟩ := lmdb_loop_trace E (fun p => Call.mdb_del p.key) "mdb_del" pairs
    (w.tick.call_ E (Call.mdb_txn_begin false))
  refine ⟨(E.lib w.eng (Call.mdb_txn_begin false)).1,
    (E.lib (lmdb_loop E (fun p => Call.mdb_del p.key) "mdb_del" pairs
      (w.tick.call_ E (Call.mdb_txn_begin false))).eng Call.mdb_txn_commit).1, t, ?_, hp⟩
  simp only [lmdb_delete, World.report, World.printf, World.tick, World.call_, World.call] at ht ⊢
  rw [ht]

theorem bench_lmdb_on_opened {σ : Type} (E : Env σ) (pairs : List kv_pair) (w : World σ)
    (h : lmdb_opens E w.eng = true) :
    ∃ w1, w1.out = w.out ∧ w1.clock_calls = w.clock_calls ∧ w1.n_ops = w.n_ops ∧
      w1.kv_len = w.kv_len ∧ w1.entered = w.entered ∧ w1.rand_calls = w.rand_calls ∧
      w1.err = w.err ∧
      w1.trace = w.trace ++ [(Call.mdb_env_create, 0), (Call.mdb_env_set_mapsize 10485760, 0),
        (Call.mdb_env_open "lmdb_bench", 0)] ∧
      bench_lmdb_on E pairs w =
        lmdb_cleanup E (lmdb_delete E pairs (lmdb_read E pairs (lmdb_write E pairs w1))) := by
  simp only [lmdb_opens, decide_eq_true_eq] at h
  obtain ⟨h1, h2, h3⟩ := h
  refine ⟨(((w.mkdir "lmdb_bench").call E Call.mdb_env_create).2.call E
    (Call.mdb_env_set_mapsize 10485760)).2.call E (Call.mdb_env_open "lmdb_bench") |>.2,
    rfl, rfl, rfl, rfl, rfl, rfl, rfl, ?_, ?_⟩
  · simp [World.call, World.mkdir, h1, h2, h3]
  · simp [bench_lmdb_on, World.call, World.mkdir, h1, h2, h3]

theorem bench_lmdb_on_trace {σ : Type} (E : Env σ) (pairs : List kv_pair) (w : World σ)
    (h : lmdb_opens E w.eng = true) :
    ∃ r1 r2 tw r3 r4 tr r5 r6 td r7 r8 r9,
      (bench_lmdb_on E pairs w).trace =
        w.trace ++ [(Call.mdb_env_create, 0), (Call.mdb_env_set_mapsize 10485760, 0),
          (Call.mdb_env_open "lmdb_bench", 0), (Call.mdb_txn_begin false, r1),
          (Call.mdb_dbi_open, r2)] ++ tw ++
        [(Call.mdb_txn_commit, r3), (Call.mdb_txn_begin true, r4)] ++ tr ++
        [(Call.mdb_txn_abort, r5), (Call.mdb_txn_begin false, r6)] ++ td ++
        [(Call.mdb_txn_commit, r7), (Call.mdb_dbi_close, r8), (Call.mdb_env_close, r9)] ∧
      phase_trace (pairs.map (fun p => Call.mdb_put p.key p.value)) tw ∧
      phase_trace (pairs.map (fun p => Call.mdb_get p.key)) tr ∧
      phase_trace (pairs.map (fun p => Call.mdb_del p.key)) td := by
  obtain ⟨w1, _, _, _, _, _, _, _, ht1, heq⟩ := bench_lmdb_on_opened E pairs w h
  obtain ⟨r1, r2, r3, tw, htw, hpw⟩ := lmdb_write_trace E pairs w1
  obtain ⟨r4, r5, tr, htr, hpr⟩ := lmdb_read_trace E pairs (lmdb_write E pairs w1)
  obtain ⟨r6, r7, td, htd, hpd⟩ :=
    lmdb_delete_trace E pairs (lmdb_read E pairs (lmdb_write E pairs w1))
  refine ⟨r1, r2, tw, r3, r4, tr, r5, r6, td, r7,
    (E.lib (lmdb_delete E pairs (lmdb_read E pairs (lmdb_write E pairs w1))).eng
      Call.mdb_dbi_close).1,
    (E.lib (E.lib (lmdb_delete E pairs (lmdb_read E pairs (lmdb_write E pairs w1))).eng
      Call.mdb_dbi_close).2 Call.mdb_env_close).1, ?_, hpw, hpr, hpd⟩
  rw [heq]
  simp only [lmdb_cleanup, World.printf, World.rm_rf, World.call_, World.call, htd, htr, htw, ht1]
  simp

/-! ## The RocksDB run -/

theorem rocksdb_loop_fresh {σ : Type} (E : Env σ) (op : kv_pair → Call) (name : String) :
    ∀ (pairs : List kv_pair) (w : World σ),
      ∃ stale t w1, rocksdb_loop E op name pairs false w = .ok (stale, w1) ∧
        w1.trace = w.trace ++ t ∧ phase_trace (pairs.map op) t ∧
        (stale = true ↔ ∃ x ∈ t, x.2 ≠ 0) ∧
        (∀ x ∈ t, ∃ s p, p ∈ pairs ∧ x = (op p, (E.lib s (op p)).1)) ∧
        w1.out = w.out ∧ w1.fs = w.fs ∧ w1.clock_calls = w.clock_calls ∧
        w1.rand_calls = w.rand_calls ∧ w1.n_ops = w.n_ops ∧ w1.kv_len = w.kv_len ∧
        w1.entered = w.entered
  | [], w => ⟨false, [], w, rfl, by simp, phase_trace_nil, by simp, by simp,
      rfl, rfl, rfl, rfl, rfl, rfl, rfl⟩
  | p :: rest, w => by
    by_cases h : (w.call E (op p)).1 ≠ 0
    · refine ⟨true, [(op p, (E.lib w.eng (op p)).1)], (w.call E (op p)).2.eprintf
        (name ++ " failed: " ++ E.errmsg (w.call E (op p)).1 ++ "\n"), ?_, ?_,
        phase_trace_stop _ _ _ h, ?_, ?_, ?_⟩
      · simp only [rocksdb_loop, Bool.false_eq_true, if_false, if_pos h]
      · rfl
      · simpa [World.call] using h
      · intro x hx
        rw [List.mem_singleton] at hx
        exact ⟨w.eng, p, List.mem_cons_self _ _, hx⟩
      · exact ⟨rfl, rfl, rfl, rfl, rfl, rfl, rfl⟩
    · obtain ⟨stale, t, w1, hl, ht, hp, hs, hx, hf⟩ :=
        rocksdb_loop_fresh E op name rest (w.call E (op p)).2
      have h0 : (E.lib w.eng (op p)).1 = 0 := by simpa [World.call] using h
      refine ⟨stale, (op p, 0) :: t, w1, ?_, ?_, phase_trace_step _ _ _ hp, ?_, ?_, hf⟩
      · simp only [rocksdb_loop, Bool.false_eq_true, if_false, if_neg h, hl]
      · rw [ht]; simp [World.call, h0]
      · rw [hs]; simp
      · intro x hmem
        rcases List.mem_cons.mp hmem with rfl | hmem
        · exact ⟨w.eng, p, List.mem_cons_self _ _, by rw [h0]⟩
        · obtain ⟨s, q, hq, rfl⟩ := hx x hmem
          exact ⟨s, q, List.mem_cons_of_mem _ hq, rfl⟩

theorem rocksdb_loop_stale {σ : Type} (E : Env σ) (op : kv_pair → Call) (name : String)
    (p : kv_pair) (rest : List kv_pair) (w : World σ) :
    rocksdb_loop E op name (p :: rest) true w = .error .use_after_free := by
  simp [rocksdb_loop]

theorem rocksdb_phase_fresh {σ : Type} (E : Env σ) (op : kv_pair → Call) (name label : String)
    (pairs : List kv_pair) (w : World σ) :
    ∃ stale t w1, rocksdb_phase E op name label pairs false w = .ok (stale, w1) ∧
      w1.trace = w.trace ++ t ∧ phase_trace (pairs.map op) t ∧
      (stale = true ↔ ∃ x ∈ t, x.2 ≠ 0) ∧
      (∀ x ∈ t, ∃ s p, p ∈ pairs ∧ x = (op p, (E.lib s (op p)).1)) ∧
      w1.out = w.out ++ [phase_line E.fmt label
        (((E.clock (w.clock_calls + 1) - E.clock w.clock_calls : Int) : ℚ) / E.CLOCKS_PER_SEC)] ∧
      w1.fs = w.fs ∧ w1.clock_calls = w.clock_calls + 2 ∧ w1.rand_calls = w.rand_calls ∧
      w1.n_ops = w.n_ops ∧ w1.kv_len = w.kv_len ∧ w1.entered = w.entered := by
  obtain ⟨stale, t, w1, hl, ht, hp, hs, hx, ho, hfs, hc, hr, hn, hk, he⟩ :=
    rocksdb_loop_fresh E op name pairs w.tick
  refine ⟨stale, t, w1.report E label (E.clock w.clock_calls), ?_, ?_, hp, hs, hx, ?_, ?_, ?_, ?_,
    ?_, ?_, ?_⟩
  · simp only [rocksdb_phase, hl]
  · simpa [World.report, World.printf, World.tick] using ht
  · simp only [World.report, World.printf, World.tick, elapsed, ho, hc]
  · simpa [World.report, World.printf, World.tick] using hfs
  · simp only [World.report, World.printf, World.tick, hc]
  · simpa [World.report, World.printf, World.tick] using hr
  · simpa [World.report, World.printf, World.tick] using hn
  · simpa [World.report, World.printf, World.tick] using hk
  · simpa [World.report, World.printf, World.tick] using he

theorem rocksdb_phase_stale {σ : Type} (E : Env σ) (op : kv_pair → Call) (name label : String)
    (p : kv_pair) (rest : List kv_pair) (w : World σ) :
    rocksdb_phase E op name label (p :: rest) true w = .error .use_after_free := by
  simp [rocksdb_phase, rocksdb_loop]

theorem bench_rocksdb_on_opened {σ : Type} (E : Env σ) (pairs : List kv_pair) (w : World σ)
    (h : rocksdb_opens E w.eng = true) :
    ∃ w1, w1.out = w.out ∧ w1.clock_calls = w.clock_calls ∧ w1.n_ops = w.n_ops ∧
      w1.kv_len = w.kv_len ∧ w1.entered = w.entered ∧ w1.rand_calls = w.rand_calls ∧
      w1.err = w.err ∧
      (w1.trace.map Prod.fst = w.trace.map Prod.fst ++ [Call.rocksdb_options_create,
        Call.rocksdb_options_set_create_if_missing 1, Call.rocksdb_options_set_use_fsync 1,
        Call.rocksdb_open "rocksdb_bench", Call.rocksdb_writeoptions_create,
        Call.rocksdb_writeoptions_set_sync 1, Call.rocksdb_readoptions_create]) ∧
      bench_rocksdb_on E pairs w =
        match rocksdb_phase E (fun p => Call.rocksdb_put p.key p.value) "RocksDB put"
            "RocksDB Write" pairs false w1 with
        | .error e => .error e
        | .ok (stale1, w2) =>
          match rocksdb_phase E (fun p => Call.rocksdb_get p.key) "RocksDB get" "RocksDB Get"
              pairs stale1 w2 with
          | .error e => .error e
          | .ok (stale2, w3) =>
            match rocksdb_phase E (fun p => Call.rocksdb_delete p.key) "RocksDB delete"
                "RocksDB Delete" pairs stale2 w3 with
            | .error e => .error e
            | .ok (_, w4) => .ok (rocksdb_cleanup E w4) := by
  simp only [rocksdb_opens, decide_eq_true_eq] at h
  refine ⟨(((((((w.call_ E Call.rocksdb_options_create).call_ E
    (Call.rocksdb_options_set_create_if_missing 1)).call_ E
    (Call.rocksdb_options_set_use_fsync 1)).call E (Call.rocksdb_open "rocksdb_bench")).2.mkdir
    "rocksdb_bench").call_ E Call.rocksdb_writeoptions_create).call_ E
    (Call.rocksdb_writeoptions_set_sync 1)).call_ E Call.rocksdb_readoptions_create,
    ?_, ?_, ?_, ?_, ?_, ?_, ?_, ?_, ?_⟩
  rotate_left 8
  · simp only [bench_rocksdb_on, World.call, World.call_, h, ne_eq, not_true_eq_false, if_false]
  all_goals simp [World.call, World.call_, World.mkdir]

theorem rocksdb_phase_healthy {σ : Type} (E : Env σ) (op : kv_pair → Call) (name label : String)
    (pairs : List kv_pair) (w : World σ) (hok : ∀ s p, (E.lib s (op p)).1 = 0) :
    ∃ t w1, rocksdb_phase E op name label pairs false w = .ok (false, w1) ∧
      w1.trace = w.trace ++ t ∧ t.map Prod.fst = pairs.map op ∧
      w1.out = w.out ++ [phase_line E.fmt label
        (((E.clock (w.clock_calls + 1) - E.clock w.clock_calls : Int) : ℚ) / E.CLOCKS_PER_SEC)] ∧
      w1.fs = w.fs ∧ w1.clock_calls = w.clock_calls + 2 ∧ w1.rand_calls = w.rand_calls ∧
      w1.n_ops = w.n_ops ∧ w1.kv_len = w.kv_len ∧ w1.entered = w.entered := by
  obtain ⟨stale, t, w1, hl, ht, hp, hs, hx, hrest⟩ := rocksdb_phase_fresh E op name label pairs w
  have hall : ∀ x ∈ t, x.2 = 0 := by
    intro x hmem
    obtain ⟨s, p, _, rfl⟩ := hx x hmem
    exact hok s p
  have hst : stale = false := by
    cases stale with
    | false => rfl
    | true =>
      obtain ⟨x, hmem, hne⟩ := hs.mp rfl
      exact absurd (hall x hmem) hne
  subst hst
  exact ⟨t, w1, hl, ht, phase_trace_complete _ _ hp hall, hrest⟩

theorem bench_rocksdb_on_healthy {σ : Type} (E : Env σ) (pairs : List kv_pair) (w : World σ)
    (hopen : rocksdb_opens E w.eng = true)
    (hput : ∀ s k v, (E.lib s (Call.rocksdb_put k v)).1 = 0)
    (hget : ∀ s k, (E.lib s (Call.rocksdb_get k)).1 = 0) :
    ∃ w1 td, bench_rocksdb_on E pairs w = .ok w1 ∧
      w1.out = w.out ++ [
        phase_line E.fmt "RocksDB Write"
          (((E.clock (w.clock_calls + 1) - E.clock w.clock_calls : Int) : ℚ) / E.CLOCKS_PER_SEC),
        phase_line E.fmt "RocksDB Get"
          (((E.clock (w.clock_calls + 3) - E.clock (w.clock_calls + 2) : Int) : ℚ)
            / E.CLOCKS_PER_SEC),
        phase_line E.fmt "RocksDB Delete"
          (((E.clock (w.clock_calls + 5) - E.clock (w.clock_calls + 4) : Int) : ℚ)
            / E.CLOCKS_PER_SEC),
        "\n"] ∧
      "rocksdb_bench" ∉ w1.fs ∧
      w1.trace.map Prod.fst = w.trace.map Prod.fst ++ [Call.rocksdb_options_create,
        Call.rocksdb_options_set_create_if_missing 1, Call.rocksdb_options_set_use_fsync 1,
        Call.rocksdb_open "rocksdb_bench", Call.rocksdb_writeoptions_create,
        Call.rocksdb_writeoptions_set_sync 1, Call.rocksdb_readoptions_create] ++
        pairs.map (fun p => Call.rocksdb_put p.key p.value) ++
        pairs.map (fun p => Call.rocksdb_get p.key) ++ td.map Prod.fst ++
        [Call.rocksdb_close, Call.rocksdb_options_destroy, Call.rocksdb_readoptions_destroy,
          Call.rocksdb_writeoptions_destroy] ∧
      phase_trace (pairs.map (fun p => Call.rocksdb_delete p.key)) td ∧
      w1.n_ops = w.n_ops ∧ w1.kv_len = w.kv_len ∧ w1.entered = w.entered ∧
      w1.rand_calls = w.rand_calls := by
  obtain ⟨w0, ho0, hc0, hn0, hk0, he0, hr0, _, ht0, heq⟩ := bench_rocksdb_on_opened E pairs w hopen
  obtain ⟨t1, w2, hl1, ht1, hm1, ho1, hf1, hc1, hr1, hn1, hk1, he1⟩ :=
    rocksdb_phase_healthy E (fun p => Call.rocksdb_put p.key p.value) "RocksDB put"
      "RocksDB Write" pairs w0 (fun s p => hput s p.key p.value)
  obtain ⟨t2, w3, hl2, ht2, hm2, ho2, hf2, hc2, hr2, hn2, hk2, he2⟩ :=
    rocksdb_phase_healthy E (fun p => Call.rocksdb_get p.key) "RocksDB get"
      "RocksDB Get" pairs w2 (fun s p => hget s p.key)
  obtain ⟨stale, td, w4, hl3, ht3, hp3, _, _, ho3, hf3, hc3, hr3, hn3, hk3, he3⟩ :=
    rocksdb_phase_fresh E (fun p => Call.rocksdb_delete p.key) "RocksDB delete"
      "RocksDB Delete" pairs w3
  refine ⟨rocksdb_cleanup E w4, td, ?_, ?_, ?_, ?_, hp3, ?_, ?_, ?_, ?_⟩
  · rw [heq]
    simp only [hl1, hl2, hl3]
  · simp only [rocksdb_cleanup, World.printf, World.rm_rf, World.call_, World.call, ho3, ho2, ho1,
      ho0, hc2, hc1, hc0, List.append_assoc, List.cons_append, List.nil_append, Nat.add_assoc,
      Nat.reduceAdd]
  · simp [rocksdb_cleanup, World.printf, World.rm_rf, World.call_, World.call]
  · simp only [rocksdb_cleanup, World.printf, World.rm_rf, World.call_, World.call, ht3, ht2, ht1,
      List.map_append, ht0, hm1, hm2]
    simp
  · simp only [rocksdb_cleanup, World.printf, World.rm_rf, World.call_, World.call, hn3, hn2, hn1,
      hn0]
  · simp only [rocksdb_cleanup, World.printf, World.rm_rf, World.call_, World.call, hk3, hk2, hk1,
      hk0]
  · simp only [rocksdb_cleanup, World.printf, World.rm_rf, World.call_, World.call, he3, he2, he1,
      he0]
  · simp only [rocksdb_cleanup, World.printf, World.rm_rf, World.call_, World.call, hr3, hr2, hr1,
      hr0]

theorem same_config_trans {σ : Type} {a b c : World σ} (h1 : same_config a b)
    (h2 : same_config b c) : same_config a c :=
  ⟨h2.1.trans h1.1, h2.2.1.trans h1.2.1, h2.2.2.1.trans h1.2.2.1, h2.2.2.2.trans h1.2.2.2⟩

theorem bench_lmdb_on_config {σ : Type} (E : Env σ) (pairs : List kv_pair) (w : World σ) :
    same_config w (bench_lmdb_on E pairs w) := by
  unfold bench_lmdb_on
  simp only
  split
  · exact ⟨rfl, rfl, rfl, rfl⟩
  · split
    · exact ⟨rfl, rfl, rfl, rfl⟩
    · split
      · exact ⟨rfl, rfl, rfl, rfl⟩
      · obtain ⟨_, _, h1, h2, h3, h4⟩ := lmdb_phases_frame E pairs
          (((((w.mkdir "lmdb_bench").call E Call.mdb_env_create).2.call E
            (Call.mdb_env_set_mapsize 10485760)).2.call E (Call.mdb_env_open "lmdb_bench")).2)
        exact ⟨h1, h2, h4, h3⟩

theorem rocksdb_loop_config {σ : Type} (E : Env σ) (op : kv_pair → Call) (name : String) :
    ∀ (pairs : List kv_pair) (stale : Bool) (w : World σ) (stale1 : Bool) (w1 : World σ),
      rocksdb_loop E op name pairs stale w = .ok (stale1, w1) → same_config w w1
  | [], _, w, _, _, h => by
    simp only [rocksdb_loop, Except.ok.injEq, Prod.mk.injEq] at h
    obtain ⟨_, rfl⟩ := h
    exact ⟨rfl, rfl, rfl, rfl⟩
  | p :: rest, stale, w, stale1, w1, h => by
    cases stale with
    | true => simp [rocksdb_loop] at h
    | false =>
      by_cases hrc : (w.call E (op p)).1 ≠ 0
      · simp only [rocksdb_loop, Bool.false_eq_true, if_false, if_pos hrc, Except.ok.injEq,
          Prod.mk.injEq] at h
        obtain ⟨_, rfl⟩ := h
        exact ⟨rfl, rfl, rfl, rfl⟩
      · simp only [rocksdb_loop, Bool.false_eq_true, if_false, if_neg hrc] at h
        exact same_config_trans (b := (w.call E (op p)).2) ⟨rfl, rfl, rfl, rfl⟩
          (rocksdb_loop_config E op name rest _ _ _ _ h)

theorem rocksdb_phase_config {σ : Type} (E : Env σ) (op : kv_pair → Call) (name label : String)
    (pairs : List kv_pair) (stale : Bool) (w : World σ) (stale1 : Bool) (w1 : World σ)
    (h : rocksdb_phase E op name label pairs stale w = .ok (stale1, w1)) : same_config w w1 := by
  unfold rocksdb_phase at h
  split at h
  · cases h
  · rename_i s2 w2 hl
    simp only [Except.ok.injEq, Prod.mk.injEq] at h
    obtain ⟨_, rfl⟩ := h
    exact same_config_trans (a := w) (b := w.tick) ⟨rfl, rfl, rfl, rfl⟩
      (same_config_trans (rocksdb_loop_config E op name pairs stale _ _ _ hl) ⟨rfl, rfl, rfl, rfl⟩)

theorem bench_rocksdb_on_config {σ : Type} (E : Env σ) (pairs : List kv_pair) (w w1 : World σ)
    (h : bench_rocksdb_on E pairs w = .ok w1) : same_config w w1 := by
  unfold bench_rocksdb_on at h
  simp only at h
  split at h
  · simp only [Except.ok.injEq] at h
    subst h
    exact ⟨rfl, rfl, rfl, rfl⟩
  · split at h
    · cases h
    · rename_i s1 w2 h1
      split at h
      · cases h
      · rename_i s2 w3 h2
        split at h
        · cases h
        · rename_i s3 w4 h3
          simp only [Except.ok.injEq] at h
          subst h
          have c1 := rocksdb_phase_config _ _ _ _ _ _ _ _ _ h1
          have c2 := rocksdb_phase_config _ _ _ _ _ _ _ _ _ h2
          have c3 := rocksdb_phase_config _ _ _ _ _ _ _ _ _ h3
          exact same_config_trans (same_config_trans (same_config_trans (same_config_trans
            ⟨rfl, rfl, rfl, rfl⟩ c1) c2) c3) ⟨rfl, rfl, rfl, rfl⟩

theorem bench_lmdb_ok {σ : Type} (E : Env σ) (w w1 : World σ) (h : bench_lmdb E w = .ok w1) :
    w1.n_ops = w.n_ops ∧ w1.kv_len = w.kv_len ∧ w1.entered = w.entered ++ ["bench_lmdb"] ∧
      w1.rand_calls = w.rand_calls + 2 * w.n_ops * (w.kv_len + 1) := by
  unfold bench_lmdb at h
  split at h
  · cases h
  · rename_i pairs pos hg
    simp only [Except.ok.injEq] at h
    subst h
    obtain ⟨_, hpos, _⟩ := generate_random_pairs_ok _ _ _ _ _ _ _ hg
    obtain ⟨h1, h2, h3, h4⟩ := bench_lmdb_on_config E pairs
      { w.enter "bench_lmdb" "Running LMDB benchmark...\n" with rand_calls := pos }
    exact ⟨h1, h2, h4, h3.trans hpos⟩

theorem bench_rocksdb_ok {σ : Type} (E : Env σ) (w w1 : World σ)
    (h : bench_rocksdb E w = .ok w1) :
    w1.n_ops = w.n_ops ∧ w1.kv_len = w.kv_len ∧ w1.entered = w.entered ++ ["bench_rocksdb"] ∧
      w1.rand_calls = w.rand_calls + 2 * w.n_ops * (w.kv_len + 1) := by
  unfold bench_rocksdb at h
  split at h
  · cases h
  · rename_i pairs pos hg
    obtain ⟨_, hpos, _⟩ := generate_random_pairs_ok _ _ _ _ _ _ _ hg
    obtain ⟨h1, h2, h3, h4⟩ := bench_rocksdb_on_config E pairs _ _ h
    exact ⟨h1, h2, h4, h3.trans hpos⟩

/-! ## `main` -/

theorem print_usage_err {σ : Type} (program_name : CStr) (w : World σ) :
    (print_usage program_name w).err = w.err ++ usage_text program_name ∧
      untouched {w with err := []} {print_usage program_name w with err := []} := by
  refine ⟨?_, rfl, rfl, rfl, rfl, rfl, rfl, rfl⟩
  simp [print_usage, World.eprintf, usage_text]

theorem parse_offending {σ : Type} (program_name : CStr) (bad : List CStr) (w : World σ)
    (h : offending accepted_value bad = true) :
    ∃ w1 msg more, parse_args program_name bad w = .exit 1 w1 ∧
      w1.err = w.err ++ (("Error: " ++ msg) :: more) ∧ no_benchmark w w1 := by
  match bad, h with
  | [arg], h =>
    simp only [offending, decide_eq_true_eq] at h
    by_cases h1 : arg = "--nops".toList
    · refine ⟨w.eprintf "Error: Missing value for --nops\n", "Missing value for --nops\n", [], ?_, ?_, rfl, rfl, rfl, rfl, rfl, rfl⟩
      · simp only [parse_args, if_neg h, if_pos h1]
      · rfl
    · by_cases h2 : arg = "--lkv".toList
      · refine ⟨w.eprintf "Error: Missing value for --lkv\n", "Missing value for --lkv\n", [], ?_, ?_, rfl, rfl, rfl, rfl, rfl, rfl⟩
        · simp only [parse_args, if_neg h, if_neg h1, if_pos h2]
        · rfl
      · refine ⟨print_usage program_name
          (w.eprintf ("Error: Unknown argument: " ++ String.mk arg ++ "\n")),
          "Unknown argument: " ++ String.mk arg ++ "\n", usage_text program_name, ?_, ?_,
          rfl, rfl, rfl, rfl, rfl, rfl⟩
        · simp only [parse_args, if_neg h, if_neg h1, if_neg h2]
        · rw [(print_usage_err program_name _).1]
          simp [World.eprintf, String.append_assoc]
          rfl
  | arg :: value :: rest, h =>
    simp only [offending] at h
    by_cases h1 : arg = "--nops".toList
    · simp only [h1, true_or, if_true, Bool.not_eq_true'] at h
      have hv : invalid_value value = true := by rw [invalid_value_eq, h]; rfl
      refine ⟨w.eprintf ("Error: Invalid value for --nops: " ++ String.mk value ++ "\n"),
        "Invalid value for --nops: " ++ String.mk value ++ "\n", [], ?_, ?_,
        rfl, rfl, rfl, rfl, rfl, rfl⟩
      · simp only [parse_args, h1, if_neg nops_ne_help, if_true, hv]
      · simp [World.eprintf, String.append_assoc]
        rfl
    · by_cases h2 : arg = "--lkv".toList
      · simp only [h2, or_true, if_true, Bool.not_eq_true'] at h
        have hv : invalid_value value = true := by rw [invalid_value_eq, h]; rfl
        refine ⟨w.eprintf ("Error: Invalid value for --lkv: " ++ String.mk value ++ "\n"),
          "Invalid value for --lkv: " ++ String.mk value ++ "\n", [], ?_, ?_,
          rfl, rfl, rfl, rfl, rfl, rfl⟩
        · simp only [parse_args, h2, if_neg lkv_ne_help, if_neg lkv_ne_nops, if_true, hv]
        · simp [World.eprintf, String.append_assoc]
          rfl
      · simp only [h1, h2, or_self, if_false, decide_eq_true_eq, Bool.false_eq_true] at h
        refine ⟨print_usage program_name
          (w.eprintf ("Error: Unknown argument: " ++ String.mk arg ++ "\n")),
          "Unknown argument: " ++ String.mk arg ++ "\n", usage_text program_name, ?_, ?_,
          rfl, rfl, rfl, rfl, rfl, rfl⟩
        · simp only [parse_args, if_neg h, if_neg h1, if_neg h2]
        · rw [(print_usage_err program_name _).1]
          simp [World.eprintf, String.append_assoc]
          rfl

theorem main_prefix {σ : Type} (program_name : CStr) (good : CStr → Bool)
    (hgood : ∀ v, good v = true → invalid_value v = false) (pre rest : List CStr) (w : World σ)
    (hpre : option_pairs good pre = true) :
    ∃ w1, untouched w w1 ∧
      ((∀ v, good v = true → (strtol v).1.toNat = decimal_value v) →
        w1.n_ops = last_value "--nops".toList w.n_ops pre ∧
        w1.kv_len = last_value "--lkv".toList w.kv_len pre) ∧
      parse_args program_name (pre ++ rest)
          (print_arguments 0 (program_name :: (pre ++ rest)) (w.printf "Arguments received:\n")) =
        parse_args program_name rest w1 := by
  obtain ⟨hu, hn, hk⟩ := print_arguments_untouched (σ := σ) (program_name :: (pre ++ rest)) 0
    (w.printf "Arguments received:\n")
  obtain ⟨w1, hu1, hcfg, hparse⟩ := parse_pairs program_name good hgood pre
    (print_arguments 0 (program_name :: (pre ++ rest)) (w.printf "Arguments received:\n")) hpre
  refine ⟨w1, untouched_trans (untouched_trans (b := w.printf "Arguments received:\n")
    ⟨rfl, rfl, rfl, rfl, rfl, rfl, rfl⟩ hu) hu1, ?_, hparse rest⟩
  intro hval
  rw [hn, hk] at hcfg
  exact hcfg hval

/-- C4 as amended. When the first argument that is not part of an accepted option/value pair is
an unknown argument, a `--nops` or `--lkv` without a value, or a `--nops`/`--lkv` whose value
is not accepted (optional white space, optional `+`, decimal digits denoting 1 to `INT_MAX`),
and no `--help` precedes it, `main` writes an `Error:` line to `stderr` and returns 1, and no
benchmark has run. -/
theorem invalid_arguments_exit_one {σ : Type} (E : Env σ) (program_name : CStr)
    (pre bad : List CStr) (w : World σ) (hpre : option_pairs accepted_value pre = true)
    (hbad : offending accepted_value bad = true) :
    ∃ w1 msg more, main E program_name (pre ++ bad) w = .ok (1, w1) ∧
      w1.err = w.err ++ (("Error: " ++ msg) :: more) ∧ no_benchmark w w1 := by
  obtain ⟨w0, hu, _, hparse⟩ :=
    main_prefix program_name accepted_value accepted_value_valid pre bad w hpre
  obtain ⟨w1, msg, more, hexit, herr, hnb⟩ := parse_offending program_name bad w0 hbad
  obtain ⟨u1, u2, u3, u4, u5, u6, u7⟩ := hu
  obtain ⟨n1, n2, n3, n4, n5, n6⟩ := hnb
  refine ⟨w1, msg, more, ?_, by rw [herr, u3], n1.trans u7, n2.trans u4, n3.trans u2,
    n4.trans u1, n5.trans u6, n6.trans u5⟩
  simp only [main, hparse, hexit]

/-- C6 as amended. When `--help` stands in option position and everything before it consists of
`--nops`/`--lkv` option/value pairs whose value `main` accepts (optional white space, optional
`+`, decimal digits denoting 1 to `INT_MAX`), `main` writes the usage text to `stderr` and
returns 0, and no benchmark has run. -/
theorem help_exits_zero {σ : Type} (E : Env σ) (program_name : CStr) (pre rest : List CStr)
    (w : World σ) (hpre : option_pairs accepted_value pre = true) :
    ∃ w1, main E program_name (pre ++ "--help".toList :: rest) w = .ok (0, w1) ∧
      w1.err = w.err ++ usage_text program_name ∧ no_benchmark w w1 := by
  obtain ⟨w0, hu, _, hparse⟩ := main_prefix program_name accepted_value accepted_value_valid pre
    ("--help".toList :: rest) w hpre
  obtain ⟨u1, u2, u3, u4, u5, u6, u7⟩ := hu
  refine ⟨print_usage program_name w0, ?_, ?_, u7, u4, u2, u1, u6, u5⟩
  · have hhelp : parse_args program_name ("--help".toList :: rest) w0 =
        .exit 0 (print_usage program_name w0) := by
      cases rest <;> simp only [parse_args, if_true]
    simp only [main, hparse, hhelp]
  · rw [(print_usage_err program_name w0).1, u3]

theorem run_benchmarks_eq {σ : Type} (E : Env σ) (w : World σ) :
    run_benchmarks E w = replay_own_workloads E w := by
  unfold run_benchmarks replay_own_workloads bench_lmdb
  have e1 : ((w.printf ("Running benchmarks with " ++ toString w.n_ops ++
      " operations and key-value length of " ++ toString w.kv_len ++ "\n\n")).srand).rand_calls
      = 0 := rfl
  have e2 : ((w.printf ("Running benchmarks with " ++ toString w.n_ops ++
      " operations and key-value length of " ++ toString w.kv_len ++ "\n\n")).srand).n_ops
      = w.n_ops := rfl
  have e3 : ((w.printf ("Running benchmarks with " ++ toString w.n_ops ++
      " operations and key-value length of " ++ toString w.kv_len ++ "\n\n")).srand).kv_len
      = w.kv_len := rfl
  rw [e1, e2, e3]
  cases hg : generate_random_pairs E.leftFirst E.rnd 0 w.n_ops w.kv_len with
  | error e => rfl
  | ok r =>
    obtain ⟨lmdb_pairs, pos1⟩ := r
    obtain ⟨_, hpos, _⟩ := generate_random_pairs_ok _ _ _ _ _ _ _ hg
    obtain ⟨c1, c2, c3, c4⟩ := bench_lmdb_on_config E lmdb_pairs
      { ((w.printf ("Running benchmarks with " ++ toString w.n_ops ++
          " operations and key-value length of " ++ toString w.kv_len ++
          "\n\n")).srand.enter "bench_lmdb" "Running LMDB benchmark...\n") with
        rand_calls := pos1 }
    simp only []
    unfold bench_rocksdb
    rw [c1, c2, c3]
    have e4 : pos1 = 2 * w.n_ops * (w.kv_len + 1) := by rw [hpos]; omega
    simp only [World.enter, World.printf, World.srand]
    rw [← e4]
    cases generate_random_pairs E.leftFirst E.rnd pos1 w.n_ops w.kv_len with
    | error e => rfl
    | ok r2 => rfl

/-- Witness of `invalid_arguments_exit_one`: `bench --lkv 4 --nops 0`. -/
theorem invalid_arguments_witness :
    option_pairs accepted_value ["--lkv".toList, "4".toList] = true ∧
    offending accepted_value ["--nops".toList, "0".toList] = true ∧
    ∃ w1 msg more, main (sample_env no_failure) "bench".toList
        (["--lkv".toList, "4".toList] ++ ["--nops".toList, "0".toList]) (World.start () []) =
          .ok (1, w1) ∧
      w1.err = (World.start () []).err ++ (("Error: " ++ msg) :: more) ∧
      no_benchmark (World.start () []) w1 :=
  ⟨by decide, by decide,
    invalid_arguments_exit_one (sample_env no_failure) "bench".toList
      ["--lkv".toList, "4".toList] ["--nops".toList, "0".toList] (World.start () [])
      (by decide) (by decide)⟩

/-- Counterexample to C4 as stated: in `bench --lkv 4 --nops " 2"` the value `" 2"` is not a
positive decimal integer (it starts with a blank), yet `main` accepts it, runs both benchmarks
and returns 0.  -/
theorem blank_before_digits_is_accepted :
    option_pairs positive_decimal ["--lkv".toList, "4".toList] = true ∧
    offending positive_decimal ["--nops".toList, " 2".toList] = true ∧
    outcome (main (sample_env no_failure) "bench".toList
      (["--lkv".toList, "4".toList] ++ ["--nops".toList, " 2".toList]) (World.start () [])) =
      some (0, ["bench_lmdb", "bench_rocksdb"]) := by
  decide

/-- Witness of `help_exits_zero`: `bench --nops 2 --help --bogus`. -/
theorem help_exits_zero_witness :
    option_pairs accepted_value ["--nops".toList, "2".toList] = true ∧
    ∃ w1, main (sample_env no_failure) "bench".toList
        (["--nops".toList, "2".toList] ++ "--help".toList :: ["--bogus".toList])
        (World.start () []) = .ok (0, w1) ∧
      w1.err = (World.start () []).err ++ usage_text "bench".toList ∧
      no_benchmark (World.start () []) w1 :=
  ⟨by decide,
    help_exits_zero (sample_env no_failure) "bench".toList ["--nops".toList, "2".toList]
      ["--bogus".toList] (World.start () []) (by decide)⟩

/-- Counterexample to C5 as stated: `bench --nops 2147483648` gives a positive integer, and
`main` rejects it with status 1 without entering a benchmark. -/
theorem above_int_max_is_rejected :
    option_pairs positive_decimal ["--nops".toList, "2147483648".toList] = true ∧
    outcome (main (sample_env no_failure) "bench".toList
      ["--nops".toList, "2147483648".toList] (World.start () [])) = some (1, []) := by
  decide

/-- Counterexample to C2 as stated: in `bench --nops 1 --lkv 1` with `rand()` yielding
0, 1, 2, ... the pair put to LMDB is `("0b", "2d")` and the pair put to RocksDB is
`("4f", "6h")`. -/
theorem backends_replay_different_pairs :
    (match main (sample_env no_failure) "bench".toList
        ["--nops".toList, "1".toList, "--lkv".toList, "1".toList] (World.start () []) with
      | .ok (_, w) => (lmdb_replayed w.trace, rocksdb_replayed w.trace)
      | .error _ => ([], [])) =
      ([("0b".toList, "2d".toList)], [("4f".toList, "6h".toList)]) := by
  decide

/-! ## What holds of the generator, of cleanup and of the phases -/

/-- The generator on suffix lengths that fit `temp`: for a length of at most 25 and every count
and random stream, `generate_random_pairs` returns exactly `num_items` pairs, consumes
`2 * num_items * (length + 1)` outputs of `rand()`, and every key and value is the decimal
rendering of a number below 1000000 followed by `length` letters. -/
theorem generated_pairs_well_formed (leftFirst : Bool) (rnd : Nat → Nat)
    (pos num_items length : Nat) (h : length ≤ 25) :
    ∃ pairs, generate_random_pairs leftFirst rnd pos num_items length =
        .ok (pairs, pos + 2 * num_items * (length + 1)) ∧ pairs.length = num_items ∧
      ∀ p ∈ pairs, well_formed_item length p.key ∧ well_formed_item length p.value := by
  obtain ⟨pairs, hp⟩ := generate_random_pairs_fits leftFirst rnd num_items length h pos
  obtain ⟨hl, _, hall⟩ := generate_random_pairs_ok _ _ _ _ _ _ _ hp
  exact ⟨pairs, hp, hl, hall⟩

/-- A run of `bench_lmdb` whose store does not open returns with the directory `lmdb_bench`
still in place. -/
theorem lmdb_failed_open_keeps_directory {σ : Type} (E : Env σ) (pairs : List kv_pair)
    (w : World σ) (h : lmdb_opens E w.eng = false) :
    "lmdb_bench" ∈ (bench_lmdb_on E pairs w).fs := by
  have hm : "lmdb_bench" ∈ (w.mkdir "lmdb_bench").fs := by
    simp only [World.mkdir]
    split
    · assumption
    · simp
  simp only [lmdb_opens, decide_eq_false_iff_not, not_and] at h
  unfold bench_lmdb_on
  simp only
  split
  · exact hm
  · rename_i h1
    split
    · exact hm
    · rename_i h2
      split
      · exact hm
      · rename_i h3
        simp only [World.call, World.mkdir, ne_eq, not_not] at h1 h2 h3
        exact absurd h3 (h h1 h2)

/-- A run of `bench_lmdb` whose store opens prints exactly the three phase lines, for the write,
read and delete phase in this order, followed by an empty line, and removes `lmdb_bench`,
whatever the outcomes of the puts, gets and deletes. -/
theorem lmdb_opened_run_reports_and_cleans {σ : Type} (E : Env σ) (pairs : List kv_pair)
    (w : World σ) (h : lmdb_opens E w.eng = true) :
    (bench_lmdb_on E pairs w).out =
      w.out ++ [phase_line E.fmt "LMDB Write"
          (((E.clock (w.clock_calls + 1) - E.clock w.clock_calls : Int) : ℚ) / E.CLOCKS_PER_SEC),
        phase_line E.fmt "LMDB Get"
          (((E.clock (w.clock_calls + 3) - E.clock (w.clock_calls + 2) : Int) : ℚ)
            / E.CLOCKS_PER_SEC),
        phase_line E.fmt "LMDB Delete"
          (((E.clock (w.clock_calls + 5) - E.clock (w.clock_calls + 4) : Int) : ℚ)
            / E.CLOCKS_PER_SEC),
        "\n"] ∧
    "lmdb_bench" ∉ (bench_lmdb_on E pairs w).fs := by
  obtain ⟨w1, ho, hc, _, _, _, _, _, _, heq⟩ := bench_lmdb_on_opened E pairs w h
  obtain ⟨h1, h2, _⟩ := lmdb_phases_frame E pairs w1
  rw [heq]
  exact ⟨by rw [h1, ho, hc], h2⟩

/-- A run of `bench_rocksdb` whose store opens and whose first put fails leaves defined
behaviour in the read phase: `err` still holds the freed message. -/
theorem rocksdb_failed_put_faults {σ : Type} (E : Env σ) (p : kv_pair) (rest : List kv_pair)
    (w : World σ) (hopen : rocksdb_opens E w.eng = true)
    (hput : ∀ s k v, (E.lib s (Call.rocksdb_put k v)).1 ≠ 0) :
    bench_rocksdb_on E (p :: rest) w = .error .use_after_free := by
  obtain ⟨w0, _, _, _, _, _, _, _, _, heq⟩ := bench_rocksdb_on_opened E (p :: rest) w hopen
  obtain ⟨stale, t, w2, hl, _, hp, hs, hx, _⟩ :=
    rocksdb_phase_fresh E (fun p => Call.rocksdb_put p.key p.value) "RocksDB put"
      "RocksDB Write" (p :: rest) w0
  have hne : t ≠ [] := by
    rintro rfl
    obtain ⟨x, hx0, _⟩ := hp.2.2 (by simp)
    simp at hx0
  obtain ⟨x, t1, rfl⟩ := List.exists_cons_of_ne_nil hne
  have hst : stale = true := by
    rw [hs]
    refine ⟨x, List.mem_cons_self _ _, ?_⟩
    obtain ⟨s, q, _, rfl⟩ := hx x (List.mem_cons_self _ _)
    exact hput s q.key q.value
  subst hst
  rw [heq]
  simp only [hl, rocksdb_phase_stale]

/-- A run of `bench_rocksdb` whose store opens, whose puts succeed and whose first get fails
leaves defined behaviour in the delete phase. -/
theorem rocksdb_failed_get_faults {σ : Type} (E : Env σ) (p : kv_pair) (rest : List kv_pair)
    (w : World σ) (hopen : rocksdb_opens E w.eng = true)
    (hput : ∀ s k v, (E.lib s (Call.rocksdb_put k v)).1 = 0)
    (hget : ∀ s k, (E.lib s (Call.rocksdb_get k)).1 ≠ 0) :
    bench_rocksdb_on E (p :: rest) w = .error .use_after_free := by
  obtain ⟨w0, _, _, _, _, _, _, _, _, heq⟩ := bench_rocksdb_on_opened E (p :: rest) w hopen
  obtain ⟨t1, w2, hl1, _⟩ :=
    rocksdb_phase_healthy E (fun p => Call.rocksdb_put p.key p.value) "RocksDB put"
      "RocksDB Write" (p :: rest) w0 (fun s q => hput s q.key q.value)
  obtain ⟨stale, t, w3, hl, _, hp, hs, hx, _⟩ :=
    rocksdb_phase_fresh E (fun p => Call.rocksdb_get p.key) "RocksDB get"
      "RocksDB Get" (p :: rest) w2
  have hne : t ≠ [] := by
    rintro rfl
    obtain ⟨x, hx0, _⟩ := hp.2.2 (by simp)
    simp at hx0
  obtain ⟨x, t2, rfl⟩ := List.exists_cons_of_ne_nil hne
  have hst : stale = true := by
    rw [hs]
    refine ⟨x, List.mem_cons_self _ _, ?_⟩
    obtain ⟨s, q, _, rfl⟩ := hx x (List.mem_cons_self _ _)
    exact hget s q.key
  subst hst
  rw [heq]
  simp only [hl1, hl, rocksdb_phase_stale]

/-! ## Defects of the code -/

/-- C1 (defect). With the default suffix length 32 every string `generate_random_pairs`
formats overruns `temp`: for every random stream and every positive count the generation
leaves defined behaviour instead of returning the pairs. -/
theorem default_length_overruns_temp (leftFirst : Bool) (rnd : Nat → Nat)
    (pos num_items : Nat) :
    generate_random_pairs leftFirst rnd pos (num_items + 1) 32 = .error .buffer_overflow :=
  generate_random_pairs_overflow leftFirst rnd pos num_items 32 (by decide)

/-- C8 (defect). For `count = 1`, `L = 32` and `rand()` yielding 0 throughout, the first string
formatted is `"0"` followed by 32 letters: with the terminator it needs 34 bytes, and `temp`
has 32. -/
theorem first_item_needs_34_bytes :
    (Nat.toDigits 10 (0 % 1000000) ++ List.replicate 32 'a').length + 1 = 34 ∧
    TEMP_SIZE = 32 ∧
    generate_random_string (fun _ => 0) 1 32 = .ok (List.replicate 32 'a', 33) ∧
    sprintf_temp (0 % 1000000) (List.replicate 32 'a') = .error .buffer_overflow ∧
    generate_random_pairs true (fun _ => 0) 0 1 32 = .error .buffer_overflow :=
  ⟨by decide, rfl, rfl, rfl, rfl⟩

/-- C7 (defect). In `bench --nops 2 --lkv 4` with `mdb_env_open` failing, `bench_lmdb` returns
after its error message, and at the end of the run the directory `lmdb_bench` that it created
is still there. -/
theorem failed_open_leaves_lmdb_bench :
    (match main (sample_env env_open_fails) "bench".toList
        ["--nops".toList, "2".toList, "--lkv".toList, "4".toList] (World.start () []) with
      | .ok (status, w) => some (status, w.fs, w.err)
      | .error _ => none) =
      some (0, ["lmdb_bench"], ["mdb_env_open failed, error 5\n"]) := by
  decide

/-- C9 (defect). In `bench --nops 2 --lkv 4` with the RocksDB puts failing, the write phase stops
after `put(key[0])`, and the read phase does not issue its operations: its first call is made
with `err` holding the freed message. -/
theorem failed_put_breaks_read_phase :
    main (sample_env put_fails) "bench".toList
      ["--nops".toList, "2".toList, "--lkv".toList, "4".toList] (World.start () []) =
      .error .use_after_free := by
  rfl

/-- C10 (defect). A RocksDB run with `n_ops = 2`, `kv_len = 4` whose store opens and whose gets
fail does not reach its third report: the delete phase starts with `err` holding the freed
message. -/
theorem failed_get_loses_delete_report :
    rocksdb_opens (sample_env get_fails) () = true ∧
    bench_rocksdb (sample_env get_fails) { World.start () [] with n_ops := 2, kv_len := 4 } =
      .error .use_after_free :=
  ⟨by decide, rfl⟩

/-! ## Runs in which no defect fires -/

theorem lmdb_loop_healthy {σ : Type} (E : Env σ) (op : kv_pair → Call) (name : String)
    (hok : ∀ s p, (E.lib s (op p)).1 = 0) :
    ∀ (pairs : List kv_pair) (w : World σ),
      (lmdb_loop E op name pairs w).trace.map Prod.fst = w.trace.map Prod.fst ++ pairs.map op
  | [], w => by simp [lmdb_loop]
  | p :: rest, w => by
    have h : ¬ (w.call E (op p)).1 ≠ 0 := by simp [World.call, hok]
    simp only [lmdb_loop, if_neg h]
    rw [lmdb_loop_healthy E op name hok rest]
    simp [World.call]

theorem lmdb_opens_of_healthy {σ : Type} (E : Env σ) (eng : σ)
    (hok : ∀ s c, (E.lib s c).1 = 0) : lmdb_opens E eng = true ∧ rocksdb_opens E eng = true := by
  simp [lmdb_opens, rocksdb_opens, hok]

theorem filterMap_take_none {α β : Type} (sel : Call → Option β) (op : α → Call)
    (h : ∀ a, sel (op a) = none) (k : Nat) (l : List α) :
    ((l.map op).take k).filterMap sel = [] := by
  rw [← List.map_take, List.filterMap_map]
  simp [Function.comp_def, h]

theorem filterMap_take_some {α β : Type} (sel : Call → Option β) (op : α → Call) (f : α → β)
    (h : ∀ a, sel (op a) = some (f a)) (k : Nat) (l : List α) :
    ((l.map op).take k).filterMap sel = (l.map f).take k := by
  have hc : sel ∘ op = some ∘ f := funext h
  rw [← List.map_take, List.filterMap_map, hc, List.filterMap_eq_map, List.map_take]

theorem filterMap_map_none {α β : Type} (sel : Call → Option β) (op : α → Call)
    (h : ∀ a, sel (op a) = none) (l : List α) : (l.map op).filterMap sel = [] := by
  have := filterMap_take_none sel op h l.length l
  rwa [List.take_of_length_le (by simp)] at this

theorem filterMap_map_some {α β : Type} (sel : Call → Option β) (op : α → Call) (f : α → β)
    (h : ∀ a, sel (op a) = some (f a)) (l : List α) : (l.map op).filterMap sel = l.map f := by
  have := filterMap_take_some sel op f h l.length l
  rwa [List.take_of_length_le (by simp), List.take_of_length_le (by simp)] at this

theorem bench_lmdb_on_replayed {σ : Type} (E : Env σ) (pairs : List kv_pair) (w : World σ) :
    (∃ k, lmdb_replayed (bench_lmdb_on E pairs w).trace =
      lmdb_replayed w.trace ++ (pairs.map pair_of).take k) ∧
    rocksdb_replayed (bench_lmdb_on E pairs w).trace = rocksdb_replayed w.trace := by
  by_cases h : lmdb_opens E w.eng = true
  · obtain ⟨r1, r2, tw, r3, r4, tr, r5, r6, td, r7, r8, r9, ht, hw, hr, hd⟩ :=
      bench_lmdb_on_trace E pairs w h
    have e1 := filterMap_take_some put_to_lmdb (fun p : kv_pair => Call.mdb_put p.key p.value)
      pair_of (fun _ => rfl) tw.length pairs
    have e2 := filterMap_take_none put_to_lmdb (fun p : kv_pair => Call.mdb_get p.key)
      (fun _ => rfl) tr.length pairs
    have e3 := filterMap_take_none put_to_lmdb (fun p : kv_pair => Call.mdb_del p.key)
      (fun _ => rfl) td.length pairs
    have f1 := filterMap_take_none put_to_rocksdb (fun p : kv_pair => Call.mdb_put p.key p.value)
      (fun _ => rfl) tw.length pairs
    have f2 := filterMap_take_none put_to_rocksdb (fun p : kv_pair => Call.mdb_get p.key)
      (fun _ => rfl) tr.length pairs
    have f3 := filterMap_take_none put_to_rocksdb (fun p : kv_pair => Call.mdb_del p.key)
      (fun _ => rfl) td.length pairs
    refine ⟨⟨tw.length, ?_⟩, ?_⟩
    · simp only [lmdb_replayed, ht, List.map_append, List.filterMap_append, hw.1, hr.1, hd.1, e1,
        e2, e3]
      simp [put_to_lmdb]
    · simp only [rocksdb_replayed, ht, List.map_append, List.filterMap_append, hw.1, hr.1, hd.1,
        f1, f2, f3]
      simp [put_to_rocksdb]
  · refine ⟨⟨0, ?_⟩, ?_⟩
    · unfold bench_lmdb_on
      simp only
      split
      · simp [lmdb_replayed, World.call, World.mkdir, World.eprintf, put_to_lmdb]
      · split
        · simp [lmdb_replayed, World.call, World.call_, World.mkdir, World.eprintf, put_to_lmdb]
        · split
          · simp [lmdb_replayed, World.call, World.call_, World.mkdir, World.eprintf, put_to_lmdb]
          · rename_i h1 h2 h3
            simp only [World.call, World.mkdir, ne_eq, not_not] at h1 h2 h3
            exact absurd (by simp [lmdb_opens, h1, h2, h3]) h
    · unfold bench_lmdb_on
      simp only
      split
      · simp [rocksdb_replayed, World.call, World.mkdir, World.eprintf, put_to_rocksdb]
      · split
        · simp [rocksdb_replayed, World.call, World.call_, World.mkdir, World.eprintf,
            put_to_rocksdb]
        · split
          · simp [rocksdb_replayed, World.call, World.call_, World.mkdir, World.eprintf,
              put_to_rocksdb]
          · rename_i h1 h2 h3
            simp only [World.call, World.mkdir, ne_eq, not_not] at h1 h2 h3
            exact absurd (by simp [lmdb_opens, h1, h2, h3]) h

theorem bench_lmdb_on_replayed_all {σ : Type} (E : Env σ) (pairs : List kv_pair) (w : World σ)
    (hok : ∀ s c, (E.lib s c).1 = 0) :
    lmdb_replayed (bench_lmdb_on E pairs w).trace =
      lmdb_replayed w.trace ++ pairs.map pair_of := by
  obtain ⟨w1, _, _, _, _, _, _, _, ht, heq⟩ :=
    bench_lmdb_on_opened E pairs w (lmdb_opens_of_healthy E w.eng hok).1
  have h1 := lmdb_loop_healthy E (fun p : kv_pair => Call.mdb_put p.key p.value) "mdb_put"
    (fun s p => hok s _)
  have h2 := lmdb_loop_healthy E (fun p : kv_pair => Call.mdb_get p.key) "mdb_get"
    (fun s p => hok s _)
  have h3 := lmdb_loop_healthy E (fun p : kv_pair => Call.mdb_del p.key) "mdb_del"
    (fun s p => hok s _)
  have e1 : (pairs.map (fun p : kv_pair => Call.mdb_put p.key p.value)).filterMap put_to_lmdb =
      pairs.map pair_of :=
    filterMap_map_some put_to_lmdb (fun p : kv_pair => Call.mdb_put p.key p.value)
      pair_of (fun _ => rfl) pairs
  have e2 : (pairs.map (fun p : kv_pair => Call.mdb_get p.key)).filterMap put_to_lmdb = [] :=
    filterMap_map_none put_to_lmdb (fun p : kv_pair => Call.mdb_get p.key)
      (fun _ => rfl) pairs
  have e3 : (pairs.map (fun p : kv_pair => Call.mdb_del p.key)).filterMap put_to_lmdb = [] :=
    filterMap_map_none put_to_lmdb (fun p : kv_pair => Call.mdb_del p.key)
      (fun _ => rfl) pairs
  rw [heq]
  simp only [lmdb_replayed, lmdb_cleanup, lmdb_delete, lmdb_read, lmdb_write, World.report,
    World.printf, World.tick, World.rm_rf, World.call_, World.call, List.map_append, h1, h2, h3,
    ht, List.filterMap_append, e1, e2, e3]
  simp [put_to_lmdb]

theorem bench_rocksdb_on_replayed {σ : Type} (E : Env σ) (pairs : List kv_pair) (w : World σ)
    (hput : ∀ s k v, (E.lib s (Call.rocksdb_put k v)).1 = 0)
    (hget : ∀ s k, (E.lib s (Call.rocksdb_get k)).1 = 0) :
    ∃ w1, bench_rocksdb_on E pairs w = .ok w1 ∧
      lmdb_replayed w1.trace = lmdb_replayed w.trace ∧
      (∃ k, rocksdb_replayed w1.trace = rocksdb_replayed w.trace ++ (pairs.map pair_of).take k) ∧
      (rocksdb_opens E w.eng = true →
        rocksdb_replayed w1.trace = rocksdb_replayed w.trace ++ pairs.map pair_of) := by
  by_cases h : rocksdb_opens E w.eng = true
  · obtain ⟨w1, td, heq, _, _, ht, hd, _⟩ := bench_rocksdb_on_healthy E pairs w h hput hget
    have e1 : (pairs.map (fun p : kv_pair => Call.rocksdb_put p.key p.value)).filterMap
        put_to_rocksdb = pairs.map pair_of :=
      filterMap_map_some put_to_rocksdb
        (fun p : kv_pair => Call.rocksdb_put p.key p.value) pair_of (fun _ => rfl) pairs
    have e2 : (pairs.map (fun p : kv_pair => Call.rocksdb_get p.key)).filterMap
        put_to_rocksdb = [] :=
      filterMap_map_none put_to_rocksdb (fun p : kv_pair => Call.rocksdb_get p.key)
        (fun _ => rfl) pairs
    have e3 := filterMap_take_none put_to_rocksdb
      (fun p : kv_pair => Call.rocksdb_delete p.key) (fun _ => rfl) td.length pairs
    have f1 : (pairs.map (fun p : kv_pair => Call.rocksdb_put p.key p.value)).filterMap
        put_to_lmdb = [] :=
      filterMap_map_none put_to_lmdb
        (fun p : kv_pair => Call.rocksdb_put p.key p.value) (fun _ => rfl) pairs
    have f2 : (pairs.map (fun p : kv_pair => Call.rocksdb_get p.key)).filterMap
        put_to_lmdb = [] :=
      filterMap_map_none put_to_lmdb (fun p : kv_pair => Call.rocksdb_get p.key)
        (fun _ => rfl) pairs
    have f3 := filterMap_take_none put_to_lmdb
      (fun p : kv_pair => Call.rocksdb_delete p.key) (fun _ => rfl) td.length pairs
    have hr : rocksdb_replayed w1.trace = rocksdb_replayed w.trace ++ pairs.map pair_of := by
      simp only [rocksdb_replayed, ht, List.filterMap_append, e1, e2, hd.1, e3]
      simp [put_to_rocksdb]
    refine ⟨w1, heq, ?_, ⟨pairs.length, ?_⟩, fun _ => hr⟩
    · simp only [lmdb_replayed, ht, List.filterMap_append, f1, f2, hd.1, f3]
      simp [put_to_lmdb]
    · rw [hr, List.take_of_length_le (by simp)]
  · have h0 : ¬ (E.lib (E.lib (E.lib (E.lib w.eng Call.rocksdb_options_create).2
        (Call.rocksdb_options_set_create_if_missing 1)).2
        (Call.rocksdb_options_set_use_fsync 1)).2 (Call.rocksdb_open "rocksdb_bench")).1 = 0 := by
      simpa [rocksdb_opens] using h
    refine ⟨((((w.call_ E Call.rocksdb_options_create).call_ E
      (Call.rocksdb_options_set_create_if_missing 1)).call_ E
      (Call.rocksdb_options_set_use_fsync 1)).call E (Call.rocksdb_open "rocksdb_bench")).2.eprintf
      ("Failed to open RocksDB: " ++ E.errmsg ((((w.call_ E Call.rocksdb_options_create).call_ E
        (Call.rocksdb_options_set_create_if_missing 1)).call_ E
        (Call.rocksdb_options_set_use_fsync 1)).call E (Call.rocksdb_open "rocksdb_bench")).1
        ++ "\n"), ?_, ?_, ⟨0, ?_⟩, fun c => absurd c h⟩
    · simp only [bench_rocksdb_on, World.call, World.call_, ne_eq, h0, not_false_eq_true, if_true]
    · simp [lmdb_replayed, World.eprintf, World.call, World.call_, put_to_lmdb]
    · simp [rocksdb_replayed, World.eprintf, World.call, World.call_, put_to_rocksdb]

theorem pair_of_injective : Function.Injective pair_of := by
  intro a b h
  cases a; cases b
  simp only [pair_of, Prod.mk.injEq] at h
  simp [h.1, h.2]

theorem run_benchmarks_total {σ : Type} (E : Env σ) (w : World σ) (P1 P2 : List kv_pair)
    (p1 p2 : Nat)
    (hg1 : generate_random_pairs E.leftFirst E.rnd 0 w.n_ops w.kv_len = .ok (P1, p1))
    (hg2 : generate_random_pairs E.leftFirst E.rnd (2 * w.n_ops * (w.kv_len + 1)) w.n_ops
      w.kv_len = .ok (P2, p2))
    (hput : ∀ s k v, (E.lib s (Call.rocksdb_put k v)).1 = 0)
    (hget : ∀ s k, (E.lib s (Call.rocksdb_get k)).1 = 0) :
    ∃ w3, run_benchmarks E w = .ok (0, w3) ∧
      w3.entered = w.entered ++ ["bench_lmdb", "bench_rocksdb"] ∧
      w3.n_ops = w.n_ops ∧ w3.kv_len = w.kv_len ∧
      (∃ k, lmdb_replayed w3.trace = lmdb_replayed w.trace ++ (P1.map pair_of).take k) ∧
      (∃ k, rocksdb_replayed w3.trace = rocksdb_replayed w.trace ++ (P2.map pair_of).take k) ∧
      ((∀ s c, (E.lib s c).1 = 0) →
        lmdb_replayed w3.trace = lmdb_replayed w.trace ++ P1.map pair_of ∧
        rocksdb_replayed w3.trace = rocksdb_replayed w.trace ++ P2.map pair_of) := by
  have hX := bench_lmdb_on_replayed E P1
    { ((w.printf ("Running benchmarks with " ++ toString w.n_ops ++
        " operations and key-value length of " ++ toString w.kv_len ++
        "\n\n")).srand.enter "bench_lmdb" "Running LMDB benchmark...\n") with rand_calls := p1 }
  have hXall := bench_lmdb_on_replayed_all E P1
    { ((w.printf ("Running benchmarks with " ++ toString w.n_ops ++
        " operations and key-value length of " ++ toString w.kv_len ++
        "\n\n")).srand.enter "bench_lmdb" "Running LMDB benchmark...\n") with rand_calls := p1 }
  have hXc := bench_lmdb_on_config E P1
    { ((w.printf ("Running benchmarks with " ++ toString w.n_ops ++
        " operations and key-value length of " ++ toString w.kv_len ++
        "\n\n")).srand.enter "bench_lmdb" "Running LMDB benchmark...\n") with rand_calls := p1 }
  obtain ⟨⟨k1, hl1⟩, hr1⟩ := hX
  obtain ⟨w3, hres, hl2, ⟨k2, hr2⟩, hr2all⟩ := bench_rocksdb_on_replayed E P2
    { ((bench_lmdb_on E P1
        { ((w.printf ("Running benchmarks with " ++ toString w.n_ops ++
            " operations and key-value length of " ++ toString w.kv_len ++
            "\n\n")).srand.enter "bench_lmdb" "Running LMDB benchmark...\n") with
          rand_calls := p1 }).enter
        "bench_rocksdb" "Running RocksDB benchmark...\n") with rand_calls := p2 } hput hget
  have hYc := bench_rocksdb_on_config E P2 _ _ hres
  have a1 : w3.entered = (bench_lmdb_on E P1 _).entered ++ ["bench_rocksdb"] := hYc.2.2.2
  have a2 : (bench_lmdb_on E P1 _).entered = w.entered ++ ["bench_lmdb"] := hXc.2.2.2
  have b1 : w3.n_ops = (bench_lmdb_on E P1 _).n_ops := hYc.1
  have b2 : (bench_lmdb_on E P1 _).n_ops = w.n_ops := hXc.1
  have c1 : w3.kv_len = (bench_lmdb_on E P1 _).kv_len := hYc.2.1
  have c2 : (bench_lmdb_on E P1 _).kv_len = w.kv_len := hXc.2.1
  have d1 : lmdb_replayed w3.trace = lmdb_replayed (bench_lmdb_on E P1 _).trace := hl2
  have d2 : lmdb_replayed (bench_lmdb_on E P1 _).trace =
      lmdb_replayed w.trace ++ (P1.map pair_of).take k1 := hl1
  have e1 : rocksdb_replayed w3.trace =
      rocksdb_replayed (bench_lmdb_on E P1 _).trace ++ (P2.map pair_of).take k2 := hr2
  have e2 : rocksdb_replayed (bench_lmdb_on E P1 _).trace = rocksdb_replayed w.trace := hr1
  refine ⟨w3, ?_, ?_, b1.trans b2, c1.trans c2, ⟨k1, d1.trans d2⟩, ⟨k2, ?_⟩, ?_⟩
  · rw [run_benchmarks_eq]
    simp only [replay_own_workloads, hg1, hg2, hres]
  · rw [a1, a2]
    simp
  · rw [e1, e2]
  · intro hall
    have d3 : lmdb_replayed (bench_lmdb_on E P1 _).trace =
        lmdb_replayed w.trace ++ P1.map pair_of := hXall hall
    have e3 : rocksdb_replayed w3.trace =
        rocksdb_replayed (bench_lmdb_on E P1 _).trace ++ P2.map pair_of :=
      hr2all (lmdb_opens_of_healthy E _ hall).2
    exact ⟨d1.trans d3, by rw [e3, e2]⟩

/-- C5 as amended. For an argument list made only of pairs `--nops N` and `--lkv N` with `N` a
positive decimal integer not above `INT_MAX`, `main` accepts it: the argument loop completes
with `n_ops` and `kv_len` equal to the last `N` given for the flag (1000 and 32 when it is
absent), nothing else done, and `main` goes on to the benchmarks with that configuration.  When
that `kv_len` is at most 25 and no RocksDB put or get fails, `main` enters `bench_lmdb` and then
`bench_rocksdb` once each, with that configuration, and returns 0. -/
theorem valid_arguments_run_both {σ : Type} (E : Env σ) (program_name : CStr)
    (args : List CStr) (eng : σ) (fs : List String)
    (hargs : option_pairs int_decimal args = true) :
    ∃ w1, w1.n_ops = last_value "--nops".toList 1000 args ∧
      w1.kv_len = last_value "--lkv".toList 32 args ∧
      no_benchmark (World.start eng fs) w1 ∧ w1.err = [] ∧
      main E program_name args (World.start eng fs) = run_benchmarks E w1 ∧
      (last_value "--lkv".toList 32 args ≤ 25 →
        (∀ s k v, (E.lib s (Call.rocksdb_put k v)).1 = 0) →
        (∀ s k, (E.lib s (Call.rocksdb_get k)).1 = 0) →
        ∃ w3, main E program_name args (World.start eng fs) = .ok (0, w3) ∧
          w3.entered = ["bench_lmdb", "bench_rocksdb"] ∧
          w3.n_ops = last_value "--nops".toList 1000 args ∧
          w3.kv_len = last_value "--lkv".toList 32 args) := by
  obtain ⟨w0, hu, hcfg, hparse⟩ :=
    main_prefix program_name int_decimal int_decimal_valid args [] (World.start eng fs) hargs
  obtain ⟨hn, hk⟩ := hcfg (fun v hv => by rw [(int_decimal_strtol v hv).1]; rfl)
  obtain ⟨u1, u2, u3, u4, u5, u6, u7⟩ := hu
  rw [List.append_nil] at hparse
  have hmain : main E program_name args (World.start eng fs) = run_benchmarks E w0 := by
    simp only [main, hparse, parse_args]
  refine ⟨w0, hn, hk, ⟨u7, u4, u2, u1, u6, u5⟩, u3, hmain, ?_⟩
  intro hlen hput hget
  have hlen0 : w0.kv_len ≤ 25 := by rw [hk]; exact hlen
  obtain ⟨P1, hg1⟩ := generate_random_pairs_fits E.leftFirst E.rnd w0.n_ops w0.kv_len hlen0 0
  obtain ⟨P2, hg2⟩ := generate_random_pairs_fits E.leftFirst E.rnd w0.n_ops w0.kv_len hlen0
    (2 * w0.n_ops * (w0.kv_len + 1))
  obtain ⟨w3, hres, he, hn3, hk3, _⟩ := run_benchmarks_total E w0 P1 P2 _ _ hg1 hg2 hput hget
  refine ⟨w3, hmain.trans hres, ?_, hn3.trans hn, hk3.trans hk⟩
  rw [he, u7]
  rfl

/-- C2 as amended. In a run of `main` on accepted arguments, in which `generate_random_pairs`
returns (no string overruns `temp`) and no RocksDB put or get fails, each backend run
generates a workload of its own: with `n = n_ops` and `L = kv_len`, the pairs put to LMDB are,
in order, an initial segment of the array `generate_random_pairs(n, L)` returns on the `rand()`
outputs that follow `srand`, and the pairs put to RocksDB an initial segment of the array it
returns on the outputs from number `2 * n * (L + 1)` on.  Both arrays have `n` entries of the
same shape.  When no library call fails each backend is put its whole array, and the two
sequences put are then the same exactly when the two arrays are. -/
theorem each_backend_generates_its_workload {σ : Type} (E : Env σ) (program_name : CStr)
    (args : List CStr) (eng : σ) (fs : List String) (P1 P2 : List kv_pair) (p1 p2 : Nat)
    (hargs : option_pairs int_decimal args = true)
    (hg1 : generate_random_pairs E.leftFirst E.rnd 0 (last_value "--nops".toList 1000 args)
      (last_value "--lkv".toList 32 args) = .ok (P1, p1))
    (hg2 : generate_random_pairs E.leftFirst E.rnd
      (2 * last_value "--nops".toList 1000 args * (last_value "--lkv".toList 32 args + 1))
      (last_value "--nops".toList 1000 args) (last_value "--lkv".toList 32 args) = .ok (P2, p2))
    (hput : ∀ s k v, (E.lib s (Call.rocksdb_put k v)).1 = 0)
    (hget : ∀ s k, (E.lib s (Call.rocksdb_get k)).1 = 0) :
    ∃ w3, main E program_name args (World.start eng fs) = .ok (0, w3) ∧
      P1.length = last_value "--nops".toList 1000 args ∧
      P2.length = last_value "--nops".toList 1000 args ∧
      (∀ p ∈ P1 ++ P2, well_formed_item (last_value "--lkv".toList 32 args) p.key ∧
        well_formed_item (last_value "--lkv".toList 32 args) p.value) ∧
      lmdb_replayed w3.trace <+: P1.map pair_of ∧
      rocksdb_replayed w3.trace <+: P2.map pair_of ∧
      ((∀ s c, (E.lib s c).1 = 0) →
        lmdb_replayed w3.trace = P1.map pair_of ∧ rocksdb_replayed w3.trace = P2.map pair_of ∧
        (lmdb_replayed w3.trace = rocksdb_replayed w3.trace ↔ P1 = P2)) := by
  obtain ⟨w0, hu, hcfg, hparse⟩ :=
    main_prefix program_name int_decimal int_decimal_valid args [] (World.start eng fs) hargs
  obtain ⟨hn, hk⟩ := hcfg (fun v hv => by rw [(int_decimal_strtol v hv).1]; rfl)
  obtain ⟨u1, u2, u3, u4, u5, u6, u7⟩ := hu
  rw [List.append_nil] at hparse
  have hmain : main E program_name args (World.start eng fs) = run_benchmarks E w0 := by
    simp only [main, hparse, parse_args]
  have hn0 : w0.n_ops = last_value "--nops".toList 1000 args := hn
  have hk0 : w0.kv_len = last_value "--lkv".toList 32 args := hk
  rw [← hn0, ← hk0] at hg1 hg2 ⊢
  have ht0 : lmdb_replayed w0.trace = [] ∧ rocksdb_replayed w0.trace = [] := by
    rw [u4]; exact ⟨rfl, rfl⟩
  obtain ⟨w3, hres, _, _, _, ⟨k1, hl⟩, ⟨k2, hr⟩, hall⟩ :=
    run_benchmarks_total E w0 P1 P2 p1 p2 hg1 hg2 hput hget
  obtain ⟨hlen1, _, hwf1⟩ := generate_random_pairs_ok _ _ _ _ _ _ _ hg1
  obtain ⟨hlen2, _, hwf2⟩ := generate_random_pairs_ok _ _ _ _ _ _ _ hg2
  rw [ht0.1, List.nil_append] at hl
  rw [ht0.2, List.nil_append] at hr
  refine ⟨w3, hmain.trans hres, hlen1, hlen2, ?_, ?_, ?_, ?_⟩
  · intro p hp
    rcases List.mem_append.mp hp with hp | hp
    · exact hwf1 p hp
    · exact hwf2 p hp
  · rw [hl]; exact List.take_prefix _ _
  · rw [hr]; exact List.take_prefix _ _
  · intro hok
    obtain ⟨h1, h2⟩ := hall hok
    rw [ht0.1, List.nil_append] at h1
    rw [ht0.2, List.nil_append] at h2
    refine ⟨h1, h2, ?_⟩
    rw [h1, h2]
    exact (List.map_injective_iff.mpr pair_of_injective).eq_iff

/-- Witness of `valid_arguments_run_both`: `bench --nops 2 --lkv 4`, which runs both benchmarks
and returns 0. -/
theorem valid_arguments_witness :
    option_pairs int_decimal ["--nops".toList, "2".toList, "--lkv".toList, "4".toList] = true ∧
    outcome (main (sample_env no_failure) "bench".toList
      ["--nops".toList, "2".toList, "--lkv".toList, "4".toList] (World.start () [])) =
      some (0, ["bench_lmdb", "bench_rocksdb"]) ∧
    ∃ w1, w1.n_ops = last_value "--nops".toList 1000
          ["--nops".toList, "2".toList, "--lkv".toList, "4".toList] ∧
      w1.kv_len = last_value "--lkv".toList 32
          ["--nops".toList, "2".toList, "--lkv".toList, "4".toList] ∧
      no_benchmark (World.start () []) w1 ∧ w1.err = [] ∧
      main (sample_env no_failure) "bench".toList
          ["--nops".toList, "2".toList, "--lkv".toList, "4".toList] (World.start () []) =
        run_benchmarks (sample_env no_failure) w1 ∧
      (last_value "--lkv".toList 32
          ["--nops".toList, "2".toList, "--lkv".toList, "4".toList] ≤ 25 →
        (∀ s k v, ((sample_env no_failure).lib s (Call.rocksdb_put k v)).1 = 0) →
        (∀ s k, ((sample_env no_failure).lib s (Call.rocksdb_get k)).1 = 0) →
        ∃ w3, main (sample_env no_failure) "bench".toList
            ["--nops".toList, "2".toList, "--lkv".toList, "4".toList] (World.start () []) =
              .ok (0, w3) ∧
          w3.entered = ["bench_lmdb", "bench_rocksdb"] ∧
          w3.n_ops = last_value "--nops".toList 1000
            ["--nops".toList, "2".toList, "--lkv".toList, "4".toList] ∧
          w3.kv_len = last_value "--lkv".toList 32
            ["--nops".toList, "2".toList, "--lkv".toList, "4".toList]) :=
  ⟨by decide, by decide,
    valid_arguments_run_both (sample_env no_failure) "bench".toList
      ["--nops".toList, "2".toList, "--lkv".toList, "4".toList] () [] (by decide)⟩

/-- Witness of `each_backend_generates_its_workload`: `bench --nops 1 --lkv 1` with `rand()`
yielding 0, 1, 2, ... and no call failing: LMDB is put `("0b", "2d")`, RocksDB `("4f", "6h")`. -/
theorem each_backend_witness :
    option_pairs int_decimal ["--nops".toList, "1".toList, "--lkv".toList, "1".toList] = true ∧
    generate_random_pairs true (fun n => n) 0 1 1 =
      .ok ([{ key := "0b".toList, value := "2d".toList }], 4) ∧
    generate_random_pairs true (fun n => n) 4 1 1 =
      .ok ([{ key := "4f".toList, value := "6h".toList }], 8) ∧
    ∃ w3, main (sample_env no_failure) "bench".toList
        ["--nops".toList, "1".toList, "--lkv".toList, "1".toList] (World.start () []) =
          .ok (0, w3) ∧
      lmdb_replayed w3.trace = [("0b".toList, "2d".toList)] ∧
      rocksdb_replayed w3.trace = [("4f".toList, "6h".toList)] := by
  obtain ⟨w3, hres, _, _, _, _, _, hall⟩ :=
    each_backend_generates_its_workload (sample_env no_failure) "bench".toList
      ["--nops".toList, "1".toList, "--lkv".toList, "1".toList] () []
      [{ key := "0b".toList, value := "2d".toList }] [{ key := "4f".toList, value := "6h".toList }]
      4 8 (by decide) rfl rfl (fun _ _ _ => rfl) (fun _ _ => rfl)
  obtain ⟨h1, h2, _⟩ := hall (fun _ _ => rfl)
  exact ⟨by decide, rfl, rfl, w3, hres, h1, h2⟩

/-- Counterexample to C6 as stated: in `bench --nops 2147483648 --help` the pair before `--help`
gives a positive decimal integer, yet `main` rejects the value and returns 1 before it reaches
`--help`. -/
theorem help_after_value_above_int_max :
    option_pairs positive_decimal ["--nops".toList, "2147483648".toList] = true ∧
    outcome (main (sample_env no_failure) "bench".toList
      (["--nops".toList, "2147483648".toList] ++ "--help".toList :: []) (World.start () [])) =
      some (1, []) ∧
    (match main (sample_env no_failure) "bench".toList
        (["--nops".toList, "2147483648".toList] ++ "--help".toList :: []) (World.start () []) with
      | .ok (_, w) => w.err
      | .error _ => []) = ["Error: Invalid value for --nops: 2147483648\n"] := by
  decide

end Bench
